import Mathlib

/-!
Verification of the HTM-Camera-Toolkit CLA Region core against its
natural-language specification.

The development shallowly embeds the two reference variants of the HTM
Region implementation:

* namespace `CAnsi` — the data-oriented ANSI-C variant
  (src/HTM/c_ansi/{Synapse,Segment,Cell,Column,Region,SegmentUpdateInfo}.c).
  Machine ints become `Int`/`Nat`; pointers to cells become stable
  (columnIndex, cellIndex) addresses into the region's column list;
  `rand()` becomes an explicit stream of naturals threaded through the
  functions that sample.  Permanences are the integer-scaled values used
  by this variant (0..10000).

* namespace `Cpp` — the object-oriented C++ variant
  (src/HTM/cpp/{Synapse,Segment,Cell,Column,Region}.cpp), embedded far
  enough to run one full `runOnce` step with temporal learning disabled
  and to analyse `Cell::getPreviousActiveSegment` and
  `Cell::getBestMatchingSegment`.  Permanences are the float values of
  this variant, modelled exactly as rationals.

Both sources fix the file-scope flag `HARDCODE_SPATIAL = true`, so the
spatial pooler is the hardcoded input-bit-to-column map; the
non-hardcoded spatial path (whose `kthScore` and
`averageReceptiveFieldSize` are stubbed to constants in both sources) is
dead code under that flag and is not modelled.
-/

namespace CAnsi

/-- Global permanence parameters from src/HTM/c_ansi/Synapse.h. -/
def MAX_PERM : Int := 10000

/-- Synapses with permanences at or above this value are connected. -/
def CONNECTED_PERM : Int := 2000

/-- Initial permanence for distal synapses. -/
def INITIAL_PERMANENCE : Int := 3000

/-- Amount permanences of synapses are incremented in learning. -/
def PERMANENCE_INC : Int := 150

/-- Amount permanences of synapses are decremented in learning. -/
def PERMANENCE_DEC : Int := 100

/-- Most prediction steps to track (src/HTM/c_ansi/Segment.h). -/
def MAX_TIME_STEPS : Int := 10

/-- Minimum synapse count used by getBestMatchingSegment
(src/HTM/c_ansi/Cell.c line 14). -/
def MIN_SYNAPSES_PER_SEGMENT_THRESHOLD : Int := 1

/-- A cell address: (column index into Region.columns, cell index into
Column.cells).  This replaces the C `Cell*` pointers; cells are never
moved or freed during a run, so pointer identity is address identity. -/
abbrev CellId := Nat × Nat

/-- src/HTM/c_ansi/Synapse.h struct SynapseType. -/
structure Synapse where
  inputSource : CellId
  permanence : Int
  isConnected : Bool
  wasConnected : Bool
deriving Repr, DecidableEq

/-- src/HTM/c_ansi/Segment.h struct SegmentType.  The allocation
bookkeeping field allocatedSynapses is dropped: the synapse list itself
carries its length. -/
structure Segment where
  synapses : List Synapse
  isSequence : Bool
  predictionSteps : Int
  segActiveThreshold : Int
  isActive : Bool
  wasActive : Bool
  numActiveConnectedSyns : Int
  numPrevActiveConnectedSyns : Int
  numActiveAllSyns : Int
  numPrevActiveAllSyns : Int
deriving Repr, DecidableEq

/-- src/HTM/c_ansi/SegmentUpdateInfo.h struct SegmentUpdateInfoType.
The cell back-pointer is dropped (an info always lives in the queue of
the cell it updates); numLearningCells is the length of learningCells. -/
structure SegmentUpdateInfo where
  segmentID : Int
  numPredictionSteps : Int
  activeSynapseIDs : List Nat
  numActiveSyns : Int
  learningCells : List CellId
  addNewSynapses : Bool
deriving Repr, DecidableEq

/-- src/HTM/c_ansi/Cell.h struct CellType. -/
structure Cell where
  predictionSteps : Int
  isActive : Bool
  wasActive : Bool
  isPredicting : Bool
  wasPredicted : Bool
  isLearning : Bool
  wasLearning : Bool
  segments : List Segment
  segmentUpdates : List SegmentUpdateInfo
deriving Repr, DecidableEq

/-- src/HTM/c_ansi/Column.h struct ColumnType.  The duty-cycle and boost
fields are only read by the non-hardcoded spatial pooler, which is dead
under HARDCODE_SPATIAL; they are carried as exact rationals. -/
structure Column where
  cells : List Cell
  isActive : Bool
  proximalSegment : Segment
  boost : ℚ
  activeDutyCycle : ℚ
  overlapDutyCycle : ℚ
  overlap : Int
  ix : Int
  iy : Int
  cx : Int
  cy : Int
deriving Repr, DecidableEq

/-- src/HTM/c_ansi/Region.h struct RegionType.  The inputData pointer is
dropped: the current input bits are passed explicitly to the functions
that read them, mirroring the caller-owned input buffer. -/
structure Region where
  inputWidth : Int
  inputHeight : Int
  localityRadius : Int
  cellsPerCol : Int
  segActiveThreshold : Int
  newSynapseCount : Int
  pctInputPerCol : ℚ
  pctMinOverlap : ℚ
  pctLocalActivity : ℚ
  spatialLearning : Bool
  temporalLearning : Bool
  width : Int
  height : Int
  xSpace : ℚ
  ySpace : ℚ
  columns : List Column
  numCols : Int
  minOverlap : ℚ
  desiredLocalActivity : Int
deriving Repr, DecidableEq

/-- The file-scope flag in Region.c line 58; fixed true in the source. -/
def HARDCODE_SPATIAL : Bool := true

def defaultSynapse : Synapse :=
  { inputSource := (0, 0), permanence := 0, isConnected := false, wasConnected := false }

def defaultSegment : Segment :=
  { synapses := [], isSequence := false, predictionSteps := 0, segActiveThreshold := 0,
    isActive := false, wasActive := false, numActiveConnectedSyns := 0,
    numPrevActiveConnectedSyns := 0, numActiveAllSyns := 0, numPrevActiveAllSyns := 0 }

def defaultCell : Cell :=
  { predictionSteps := 0, isActive := false, wasActive := false, isPredicting := false,
    wasPredicted := false, isLearning := false, wasLearning := false,
    segments := [], segmentUpdates := [] }

def defaultColumn : Column :=
  { cells := [], isActive := false, proximalSegment := defaultSegment, boost := 1,
    activeDutyCycle := 1, overlapDutyCycle := 1, overlap := 0, ix := 0, iy := 0,
    cx := 0, cy := 0 }

/-- Read column i of the region (C: region->columns[i]). -/
def getCol (r : Region) (i : Nat) : Column := r.columns.getD i defaultColumn

/-- Read the cell at the given address (C: dereferencing a Cell*). -/
def getCell (r : Region) (id : CellId) : Cell :=
  (getCol r id.1).cells.getD id.2 defaultCell

/-- Replace column i by the image of the current column under f. -/
def modifyCol (r : Region) (i : Nat) (f : Column → Column) : Region :=
  { r with columns := r.columns.set i (f (r.columns.getD i defaultColumn)) }

/-- Replace the addressed cell by the image of the current cell under f. -/
def modifyCell (r : Region) (id : CellId) (f : Cell → Cell) : Region :=
  modifyCol r id.1 fun col =>
    { col with cells := col.cells.set id.2 (f (col.cells.getD id.2 defaultCell)) }

/-! ### Synapse operations (src/HTM/c_ansi/Synapse.c) -/

/-- initSynapse: permanence as given, connection flags cleared. -/
def initSynapse (inputSource : CellId) (permanence : Int) : Synapse :=
  { inputSource := inputSource, permanence := permanence,
    isConnected := false, wasConnected := false }

/-- isSynapseActive: the source cell is active and the synapse is
connected (or connection is not required). -/
def isSynapseActive (r : Region) (syn : Synapse) (connectedOnly : Bool) : Bool :=
  (getCell r syn.inputSource).isActive && (syn.isConnected || !connectedOnly)

/-- wasSynapseActive: the source cell was active at t-1 and the synapse
was connected (or connection is not required). -/
def wasSynapseActive (r : Region) (syn : Synapse) (connectedOnly : Bool) : Bool :=
  (getCell r syn.inputSource).wasActive && (syn.wasConnected || !connectedOnly)

/-- wasSynapseActiveFromLearning: was active (connected) and the source
cell was learning at t-1. -/
def wasSynapseActiveFromLearning (r : Region) (syn : Synapse) : Bool :=
  wasSynapseActive r syn true && (getCell r syn.inputSource).wasLearning

/-- increaseSynapsePermanence: amount 0 selects the default increment;
the result is clamped above by MAX_PERM. -/
def increaseSynapsePermanence (syn : Synapse) (amount : Int) : Synapse :=
  let amount := if amount = 0 then PERMANENCE_INC else amount
  { syn with permanence := min MAX_PERM (syn.permanence + amount) }

/-- decreaseSynapsePermanence: amount 0 selects the default decrement;
the result is clamped below by 0. -/
def decreaseSynapsePermanence (syn : Synapse) (amount : Int) : Synapse :=
  let amount := if amount = 0 then PERMANENCE_DEC else amount
  { syn with permanence := max 0 (syn.permanence - amount) }

/-! ### Segment operations (src/HTM/c_ansi/Segment.c) -/

/-- initSegment: empty segment with the given activation threshold. -/
def initSegment (segActiveThreshold : Int) : Segment :=
  { synapses := [], isSequence := false, predictionSteps := 0,
    segActiveThreshold := segActiveThreshold, isActive := false, wasActive := false,
    numActiveConnectedSyns := 0, numPrevActiveConnectedSyns := 0,
    numActiveAllSyns := 0, numPrevActiveAllSyns := 0 }

/-- nextSegmentTimeStep: rotate current activity and counts into the
previous slots and cache wasConnected for every synapse. -/
def nextSegmentTimeStep (seg : Segment) : Segment :=
  { seg with
    wasActive := seg.isActive
    isActive := false
    numPrevActiveAllSyns := seg.numActiveAllSyns
    numPrevActiveConnectedSyns := seg.numActiveConnectedSyns
    synapses := seg.synapses.map fun s =>
      { s with wasConnected := s.isConnected, isConnected := false } }

/-- processSegment: recompute isConnected per synapse from permanence,
count the active synapses (connected / all) and set segment activity. -/
def processSegment (r : Region) (seg : Segment) : Segment :=
  let syns := seg.synapses.map fun s =>
    { s with isConnected := decide (s.permanence ≥ CONNECTED_PERM) }
  let nc : Int := (syns.filter fun s =>
    (getCell r s.inputSource).isActive && s.isConnected).length
  let na : Int := (syns.filter fun s =>
    (getCell r s.inputSource).isActive).length
  { seg with
    synapses := syns, numActiveConnectedSyns := nc,
    numActiveAllSyns := na, isActive := decide (nc ≥ seg.segActiveThreshold) }

/-- setNumPredictionSteps: clamp to 1..MAX_TIME_STEPS; a segment is a
sequence segment exactly when it predicts one step ahead. -/
def setNumPredictionSteps (seg : Segment) (steps : Int) : Segment :=
  let steps := if steps < 1 then 1 else steps
  let steps := if steps > MAX_TIME_STEPS then MAX_TIME_STEPS else steps
  { seg with predictionSteps := steps, isSequence := decide (steps = 1) }

/-- createSynapse: append a new synapse for the given source. -/
def createSynapse (seg : Segment) (inputSource : CellId) (initPerm : Int) : Segment :=
  { seg with synapses := seg.synapses ++ [initSynapse inputSource initPerm] }

/-- updateSegmentPermanences: default-increase or default-decrease every
synapse on the segment. -/
def updateSegmentPermanences (seg : Segment) (increase : Bool) : Segment :=
  { seg with synapses := seg.synapses.map fun syn =>
      if increase then increaseSynapsePermanence syn 0
      else decreaseSynapsePermanence syn 0 }

/-- wasSegmentActiveFromLearning: enough synapses were active from
learning source cells at t-1. -/
def wasSegmentActiveFromLearning (r : Region) (seg : Segment) : Bool :=
  ((seg.synapses.filter fun syn => wasSynapseActiveFromLearning r syn).length : Int)
    ≥ seg.segActiveThreshold

/-! ### Cell operations (src/HTM/c_ansi/Cell.c) -/

/-- initCell: all states clear, no segments, no pending updates. -/
def initCell : Cell := defaultCell

/-- nextCellTimeStep: rotate the double-buffered cell states and advance
every owned segment. -/
def nextCellTimeStep (cell : Cell) : Cell :=
  { cell with
    wasActive := cell.isActive
    wasPredicted := cell.isPredicting
    wasLearning := cell.isLearning
    isActive := false
    isPredicting := false
    isLearning := false
    segments := cell.segments.map nextSegmentTimeStep }

/-- setCellPredicting: when entering the predicting state, cache the
fewest predictionSteps among the currently active segments. -/
def setCellPredicting (cell : Cell) (predicting : Bool) : Cell :=
  let cell := { cell with isPredicting := predicting }
  if cell.isPredicting then
    { cell with
      predictionSteps := cell.segments.foldl
        (fun ps seg => if seg.isActive && seg.predictionSteps < ps
                       then seg.predictionSteps else ps) MAX_TIME_STEPS }
  else cell

/-- createCellSegment: append a fresh segment using the Region's
activation threshold; returns the cell and the new segment's index. -/
def createCellSegment (r : Region) (cell : Cell) : Cell × Nat :=
  ({ cell with segments := cell.segments ++ [initSegment r.segActiveThreshold] },
   cell.segments.length)

/-- The loop body of getPreviousActiveSegment, scanning segments in
order while tracking whether a sequence segment was found and the most
previous-active connected synapses seen so far. -/
def getPreviousActiveSegmentGo :
    List Segment → Bool → Int → Option Segment → Option Segment
  | [], _, _, best => best
  | seg :: rest, foundSequence, mostSyns, best =>
    let activeSyns := seg.numPrevActiveConnectedSyns
    if activeSyns > seg.segActiveThreshold then
      if seg.isSequence then
        if activeSyns > mostSyns then
          getPreviousActiveSegmentGo rest true activeSyns (some seg)
        else
          getPreviousActiveSegmentGo rest true mostSyns best
      else if !foundSequence then
        if activeSyns > mostSyns then
          getPreviousActiveSegmentGo rest foundSequence activeSyns (some seg)
        else
          getPreviousActiveSegmentGo rest foundSequence mostSyns best
      else
        getPreviousActiveSegmentGo rest foundSequence mostSyns best
    else
      getPreviousActiveSegmentGo rest foundSequence mostSyns best

/-- getPreviousActiveSegment: a segment whose cached previous-active
connected synapse count strictly exceeds its threshold, preferring
sequence segments once found, otherwise most active synapses. -/
def getPreviousActiveSegment (cell : Cell) : Option Segment :=
  getPreviousActiveSegmentGo cell.segments false 0 none

/-- The raw (connectedOnly = false) active synapse count read at the
requested time reference (the synCount local of the source loops). -/
def rawSynCount (previous : Bool) (seg : Segment) : Int :=
  if previous then seg.numPrevActiveAllSyns else seg.numActiveAllSyns

/-- The loop body of getBestMatchingSegment over indexed segments,
tracking the best raw active synapse count seen so far. -/
def getBestMatchingSegmentGo (numPredictionSteps : Int) (previous : Bool) :
    List (Nat × Segment) → Int → Option (Nat × Segment) → Option (Nat × Segment)
  | [], _, best => best
  | (i, seg) :: rest, bestSynapseCount, best =>
    if seg.predictionSteps = numPredictionSteps then
      if rawSynCount previous seg > bestSynapseCount then
        getBestMatchingSegmentGo numPredictionSteps previous rest
          (rawSynCount previous seg) (some (i, seg))
      else
        getBestMatchingSegmentGo numPredictionSteps previous rest bestSynapseCount best
    else
      getBestMatchingSegmentGo numPredictionSteps previous rest bestSynapseCount best

/-- getBestMatchingSegment: among segments with exactly the requested
predictionSteps, the one with the most raw (connected or not) active
synapses at the requested time, provided the count strictly exceeds
MIN_SYNAPSES_PER_SEGMENT_THRESHOLD; returns the index and the segment. -/
def getBestMatchingSegment (cell : Cell) (numPredictionSteps : Int)
    (previous : Bool) : Option (Nat × Segment) :=
  getBestMatchingSegmentGo numPredictionSteps previous cell.segments.enum
    MIN_SYNAPSES_PER_SEGMENT_THRESHOLD none

/-- getBestMatchingPreviousSegment: best match at t-1 among segments
that predict for the cell's cached predictionSteps + 1. -/
def getBestMatchingPreviousSegment (cell : Cell) : Option (Nat × Segment) :=
  getBestMatchingSegment cell (cell.predictionSteps + 1) true

/-! ### Column operations (src/HTM/c_ansi/Column.c) -/

/-- initColumn: cellsPerCol fresh cells, a fresh proximal segment using
the region's activation threshold, unit boost and duty cycles. -/
def initColumn (cellsPerCol segActiveThreshold : Int)
    (srcPosX srcPosY posX posY : Int) : Column :=
  { cells := (List.range cellsPerCol.toNat).map fun _ => initCell
    isActive := false
    proximalSegment := initSegment segActiveThreshold
    boost := 1, activeDutyCycle := 1, overlapDutyCycle := 1, overlap := 0
    ix := srcPosX, iy := srcPosY, cx := posX, cy := posY }

/-- nextColumnTimeStep: advance every cell (the proximal segment is not
advanced here, exactly as in the source). -/
def nextColumnTimeStep (col : Column) : Column :=
  { col with cells := col.cells.map nextCellTimeStep }

/-- The index of the first cell having the fewest segments, starting
from cell 0 (the fallback branch of getBestMatchingCell). -/
def fewestSegmentsCell (cells : List Cell) : Nat :=
  (cells.enum.foldl
    (fun acc p => if p.2.segments.length < acc.2 then (p.1, p.2.segments.length) else acc)
    (0, (cells.headD defaultCell).segments.length)).1

/-- getBestMatchingCell: the cell whose best matching segment has the
most raw active synapses; result is (cell index, best segment index or
none).  If no cell has a matching segment, fall back to the first cell
with the fewest segments. -/
def getBestMatchingCell (col : Column) (numPredictionSteps : Int)
    (previous : Bool) : Nat × Option Nat :=
  let best := col.cells.enum.foldl
    (fun (acc : Int × Option (Nat × Nat)) p =>
      match getBestMatchingSegment p.2 numPredictionSteps previous with
      | none => acc
      | some (segIdx, seg) =>
        if rawSynCount previous seg > acc.1 then
          (rawSynCount previous seg, some (p.1, segIdx))
        else acc)
    (0, none)
  match best.2 with
  | some (ci, si) => (ci, some si)
  | none => (fewestSegmentsCell col.cells, none)

/-! ### SegmentUpdateInfo operations (src/HTM/c_ansi/SegmentUpdateInfo.c)

The C variant draws from `rand()`; here the random stream is an explicit
list of naturals consumed in call order (empty stream reads as 0). -/

/-- One draw from the injected random stream. -/
def randNext : List Nat → Nat × List Nat
  | [] => (0, [])
  | n :: rest => (n, rest)

/-- randomSample: sample m of the n cells, Floyd-style: for i from n-m
to n-1 pick cells[rand mod (i+1)], replacing an already-chosen item by
cells[i]. -/
def randomSample (cells : List CellId) (n m : Nat) (rng : List Nat) :
    List CellId × List Nat :=
  (List.range m).foldl
    (fun acc k =>
      let i := n - m + k
      let (rv, rng) := randNext acc.2
      let pos := rv % (i + 1)
      let item := cells.getD pos (0, 0)
      if acc.1.contains item then (acc.1 ++ [cells.getD i (0, 0)], rng)
      else (acc.1 ++ [item], rng))
    ([], rng)

/-- initSegmentUpdateInfo: snapshot the target segment's currently (or
previously) active connected synapses; if addNewSynapses, build the
candidate pool of wasLearning cells over the whole column grid (the
locality-radius restriction is an unimplemented TODO in the source),
skipping the target cell's own column and cells already sourcing a
synapse on the target segment; then sample
min(pool size, newSynapseCount - snapshot size) cells.
The source also debug-checks that the cached active count matches the
recomputed snapshot length. -/
def initSegmentUpdateInfo (r : Region) (cid : CellId) (segmentID : Int)
    (previous addNewSynapses : Bool) (rng : List Nat) :
    SegmentUpdateInfo × List Nat :=
  let cell := getCell r cid
  let segment? : Option Segment :=
    if segmentID ≥ 0 then cell.segments.get? segmentID.toNat else none
  let numActiveSyns : Int :=
    match segment? with
    | some seg =>
      if previous then seg.numPrevActiveConnectedSyns else seg.numActiveConnectedSyns
    | none => 0
  let activeSynapseIDs : List Nat :=
    match segment? with
    | some seg => seg.synapses.enum.filterMap fun p =>
        if (if previous then wasSynapseActive r p.2 true else isSynapseActive r p.2 true)
        then some p.1 else none
    | none => []
  let pool : List CellId :=
    if addNewSynapses then
      (List.range r.width.toNat).flatMap fun x =>
        (List.range r.height.toNat).flatMap fun y =>
          let ci := y * r.width.toNat + x
          if ci = cid.1 then []
          else (getCol r ci).cells.enum.filterMap fun p =>
            if p.2.wasLearning &&
               (match segment? with
                | none => true
                | some seg => !(seg.synapses.any fun s => s.inputSource == (ci, p.1)))
            then some (ci, p.1) else none
    else []
  let synCount : Int :=
    match segment? with
    | some _ => max 0 (r.newSynapseCount - numActiveSyns)
    | none => r.newSynapseCount
  let synCount : Int := min (pool.length : Int) synCount
  let sampled :=
    if pool.length > 0 && synCount > 0 then
      randomSample pool pool.length synCount.toNat rng
    else ([], rng)
  ({ segmentID := segmentID, numPredictionSteps := 1,
     activeSynapseIDs := activeSynapseIDs, numActiveSyns := numActiveSyns,
     learningCells := sampled.1, addNewSynapses := addNewSynapses }, sampled.2)

/-- updateSegmentActiveSynapses (Cell.c): build a SegmentUpdateInfo and
append it to the cell's pending queue. -/
def updateSegmentActiveSynapses (r : Region) (cid : CellId) (previous : Bool)
    (segmentID : Int) (newSynapses : Bool) (rng : List Nat) : Region × List Nat :=
  let res := initSegmentUpdateInfo r cid segmentID previous newSynapses rng
  (modifyCell r cid fun c => { c with segmentUpdates := c.segmentUpdates ++ [res.1] },
   res.2)

/-- Apply f to the last element of a list (models the C caller mutating
the SegmentUpdateInfo it was just handed back by pointer). -/
def modifyLast {α : Type} (f : α → α) : List α → List α
  | [] => []
  | [a] => [f a]
  | a :: rest => a :: modifyLast f rest

/-- Mutate the most recently queued update of the addressed cell. -/
def modifyLastSegUpdate (r : Region) (cid : CellId)
    (f : SegmentUpdateInfo → SegmentUpdateInfo) : Region :=
  modifyCell r cid fun c => { c with segmentUpdates := modifyLast f c.segmentUpdates }

/-- Replace segment segIdx of the addressed cell by its image under f. -/
def modifySegment (r : Region) (cid : CellId) (segIdx : Nat)
    (f : Segment → Segment) : Region :=
  modifyCell r cid fun c =>
    { c with segments := c.segments.set segIdx (f (c.segments.getD segIdx defaultSegment)) }

/-- createSynapsesToLearningCells: one new synapse per learning cell in
the update info, at the initial distal permanence. -/
def createSynapsesToLearningCells (info : SegmentUpdateInfo) (seg : Segment) : Segment :=
  info.learningCells.foldl (fun seg cid => createSynapse seg cid INITIAL_PERMANENCE) seg

/-- createCellSegmentFromInfo: append a fresh segment to the update's
cell, give it the update's prediction steps, and wire it to the
update's learning cells. -/
def createCellSegmentFromInfo (r : Region) (cid : CellId)
    (info : SegmentUpdateInfo) : Region :=
  modifyCell r cid fun cell =>
    let created := createCellSegment r cell
    let cell := created.1
    let segIdx := created.2
    let seg := setNumPredictionSteps (cell.segments.getD segIdx defaultSegment)
      info.numPredictionSteps
    { cell with segments := cell.segments.set segIdx
                              (createSynapsesToLearningCells info seg) }

/-- updateInfoPermanences: default-decrease every synapse of the target
segment, then increase the snapshotted active ones by twice the default
increment. -/
def updateInfoPermanences (r : Region) (cid : CellId)
    (info : SegmentUpdateInfo) : Region :=
  modifySegment r cid info.segmentID.toNat fun seg =>
    let syns := seg.synapses.map fun syn => decreaseSynapsePermanence syn 0
    let syns := (info.activeSynapseIDs.take info.numActiveSyns.toNat).foldl
      (fun syns i =>
        syns.set i (increaseSynapsePermanence (syns.getD i defaultSynapse)
          (PERMANENCE_INC * 2)))
      syns
    { seg with synapses := syns }

/-- decreaseInfoPermanences: default-decrease only the snapshotted
active synapses of the target segment. -/
def decreaseInfoPermanences (r : Region) (cid : CellId)
    (info : SegmentUpdateInfo) : Region :=
  modifySegment r cid info.segmentID.toNat fun seg =>
    let syns := (info.activeSynapseIDs.take info.numActiveSyns.toNat).foldl
      (fun syns i =>
        syns.set i (decreaseSynapsePermanence (syns.getD i defaultSynapse) 0))
      seg.synapses
    { seg with synapses := syns }

/-- applySegmentUpdates: reinforce or decay the target segment, then
(for positive reinforcement with addNewSynapses) create the segment if
none was assigned, or extend the existing one, using the sampled
learning cells. -/
def applySegmentUpdates (r : Region) (cid : CellId) (info : SegmentUpdateInfo)
    (positiveReinforcement : Bool) : Region :=
  let hasSegment := info.segmentID ≥ 0
  let r := if hasSegment then
      (if positiveReinforcement then updateInfoPermanences r cid info
       else decreaseInfoPermanences r cid info)
    else r
  if info.addNewSynapses && positiveReinforcement then
    if !hasSegment then
      if info.learningCells.length > 0 then createCellSegmentFromInfo r cid info else r
    else if info.learningCells.length > 0 then
      modifySegment r cid info.segmentID.toNat fun seg =>
        createSynapsesToLearningCells info seg
    else r
  else r

/-- applyCellSegmentUpdates (Cell.c): apply every queued update of the
cell in order, then clear the queue. -/
def applyCellSegmentUpdates (r : Region) (cid : CellId)
    (positiveReinforcement : Bool) : Region :=
  let infos := (getCell r cid).segmentUpdates
  let r := infos.foldl (fun r info => applySegmentUpdates r cid info positiveReinforcement) r
  modifyCell r cid fun c => { c with segmentUpdates := [] }

/-! ### Region operations (src/HTM/c_ansi/Region.c) -/

/-- newRegionHardcoded: one column per input bit (column grid mirrors
the input grid), no proximal synapses, spatial learning off and
temporal learning on.  Column index (cy*width)+cx holds the column at
grid position (cx,cy) with matching input position. -/
def newRegionHardcoded (inputSizeX inputSizeY localityRadius cellsPerCol
    segActiveThreshold newSynapseCount : Int) : Region :=
  let width := inputSizeX
  let height := inputSizeY
  let numCols := width * height
  { inputWidth := inputSizeX, inputHeight := inputSizeY
    localityRadius := localityRadius, cellsPerCol := cellsPerCol
    segActiveThreshold := segActiveThreshold, newSynapseCount := newSynapseCount
    pctInputPerCol := 1 / (numCols : ℚ), pctMinOverlap := 1, pctLocalActivity := 1
    spatialLearning := false, temporalLearning := true
    width := width, height := height, xSpace := 1, ySpace := 1
    columns := (List.range numCols.toNat).map fun i =>
      initColumn cellsPerCol segActiveThreshold
        (Int.ofNat (i % width.toNat)) (Int.ofNat (i / width.toNat))
        (Int.ofNat (i % width.toNat)) (Int.ofNat (i / width.toNat))
    numCols := numCols, minOverlap := 1, desiredLocalActivity := 1 }

/-- The per-cell test of getLastAccuracy: the cell was predicted and
some segment was active at t-1 as a sequence segment.  (The source
scans a column's cells in order and leaves the scan at the first such
cell; only the existence matters for the counts.) -/
def cellCorrectlyPredicted (cell : Cell) : Bool :=
  cell.wasPredicted && cell.segments.any fun seg => seg.wasActive && seg.isSequence

/-- The per-column body of the getLastAccuracy loop, accumulating
(sumP, sumA, sumAP). -/
def accuracyStep (acc : Int × Int × Int) (col : Column) : Int × Int × Int :=
  let sumP := acc.1
  let sumA := if col.isActive then acc.2.1 + 1 else acc.2.1
  let sumAP := acc.2.2
  if col.cells.any cellCorrectlyPredicted then
    (sumP + 1, sumA, if col.isActive then sumAP + 1 else sumAP)
  else (sumP, sumA, sumAP)

/-- getLastAccuracy: activation accuracy and prediction accuracy of the
most recent time step; each ratio is 0 when its denominator is 0. -/
def getLastAccuracy (r : Region) : ℚ × ℚ :=
  let counts := (List.range r.numCols.toNat).foldl
    (fun acc i => accuracyStep acc (getCol r i)) (0, 0, 0)
  ((if counts.2.1 > 0 then (counts.2.2 : ℚ) / (counts.2.1 : ℚ) else 0),
   (if counts.1 > 0 then (counts.2.2 : ℚ) / (counts.1 : ℚ) else 0))

/-- performSpatialPooling under HARDCODE_SPATIAL (fixed true in the
source): column i is active exactly when input bit i is 1. -/
def performSpatialPooling (r : Region) (input : List Int) : Region :=
  if HARDCODE_SPATIAL then
    { r with columns := r.columns.enum.map fun p =>
        if (p.1 : Int) < r.numCols then
          { p.2 with isActive := decide (input.getD p.1 0 = 1) }
        else p.2 }
  else r

/-- Temporal pooling Phase 1 for one column: activate bottom-up
predicted cells (via a previously active sequence segment), marking
them learning when that segment was active from learning; burst the
column if nothing was predicted; if no learning cell was chosen, make
the best matching cell learning and queue a sequence-segment update
with new synapses from the previous step.  The per-cell scan loop body
is factored out as phase1ScanStep. -/
def phase1ScanStep (ci : Nat) (acc : Region × Bool × Bool) (c : Nat) :
    Region × Bool × Bool :=
  let r := acc.1
  let cell := getCell r (ci, c)
  if cell.wasPredicted then
    match getPreviousActiveSegment cell with
    | some segment =>
      if segment.isSequence then
        let r := modifyCell r (ci, c) fun cell => { cell with isActive := true }
        if r.temporalLearning && wasSegmentActiveFromLearning r segment then
          (modifyCell r (ci, c) fun cell => { cell with isLearning := true },
           true, true)
        else (r, true, acc.2.2)
      else acc
    | none => acc
  else acc

def phase1Column (r : Region) (ci : Nat) (rng : List Nat) : Region × List Nat :=
  let col := getCol r ci
  if col.isActive then
    let scan := (List.range col.cells.length).foldl (phase1ScanStep ci)
      (r, false, false)
    let r := scan.1
    let buPredicted := scan.2.1
    let learningCellChosen := scan.2.2
    let r := if !buPredicted then
        (List.range (getCol r ci).cells.length).foldl
          (fun r c => modifyCell r (ci, c) fun cell => { cell with isActive := true }) r
      else r
    if r.temporalLearning && !learningCellChosen then
      let best := getBestMatchingCell (getCol r ci) 1 true
      let bestCellIdx := best.1
      let bestSegID : Int := match best.2 with
        | some si => (si : Int)
        | none => -1
      let r := modifyCell r (ci, bestCellIdx) fun cell => { cell with isLearning := true }
      let step := updateSegmentActiveSynapses r (ci, bestCellIdx) true bestSegID true rng
      let r := modifyLastSegUpdate step.1 (ci, bestCellIdx) fun info =>
        { info with numPredictionSteps := 1 }
      (r, step.2)
    else (r, rng)
  else (r, rng)

/-- Temporal pooling Phase 2 for one cell: refresh all segment caches;
if some segment is active, enter the predicting state and (when
learning) queue reinforcement of the first active segment; when
predicting and learning, additionally queue an update (with new
synapses) of the best matching previous segment for predictionSteps+1,
creating a new segment when none matches. -/
def phase2Cell (r : Region) (cid : CellId) (rng : List Nat) : Region × List Nat :=
  let r := modifyCell r cid fun cell =>
    { cell with segments := cell.segments.map (processSegment r) }
  let cell := getCell r cid
  let firstActive? := cell.segments.findIdx? fun seg => seg.isActive
  let afterA :=
    match firstActive? with
    | some s =>
      let r := modifyCell r cid fun cell => setCellPredicting cell true
      if r.temporalLearning then updateSegmentActiveSynapses r cid false (s : Int) false rng
      else (r, rng)
    | none => (r, rng)
  let r := afterA.1
  let rng := afterA.2
  let cell := getCell r cid
  if r.temporalLearning && cell.isPredicting then
    let predSeg? := getBestMatchingPreviousSegment cell
    let predSegID : Int := match predSeg? with
      | some p => (p.1 : Int)
      | none => -1
    let step := updateSegmentActiveSynapses r cid true predSegID true rng
    let r := match predSeg? with
      | none => modifyLastSegUpdate step.1 cid fun info =>
          { info with numPredictionSteps := cell.predictionSteps + 1 }
      | some _ => step.1
    (r, step.2)
  else (r, rng)

/-- Temporal pooling Phase 3 for one cell: a learning cell applies its
queued updates positively; a cell that just stopped predicting after
being predicted applies them negatively. -/
def phase3Cell (r : Region) (cid : CellId) : Region :=
  let cell := getCell r cid
  if cell.isLearning then applyCellSegmentUpdates r cid true
  else if !cell.isPredicting && cell.wasPredicted then
    applyCellSegmentUpdates r cid false
  else r

/-- performTemporalPooling: Phase 1 over all columns, Phase 2 over all
cells, then (only with temporal learning) Phase 3 over all cells. -/
def performTemporalPooling (r : Region) (rng : List Nat) : Region × List Nat :=
  let p1 := (List.range r.numCols.toNat).foldl
    (fun acc ci => phase1Column acc.1 ci acc.2) (r, rng)
  let p2 := (List.range p1.1.numCols.toNat).foldl
    (fun (acc : Region × List Nat) ci =>
      (List.range (getCol acc.1 ci).cells.length).foldl
        (fun acc2 c => phase2Cell acc2.1 (ci, c) acc2.2) acc)
    p1
  let r := p2.1
  if !r.temporalLearning then p2
  else
    ((List.range r.numCols.toNat).foldl
      (fun r ci =>
        (List.range (getCol r ci).cells.length).foldl
          (fun r c => phase3Cell r (ci, c)) r)
      r, p2.2)

/-- Advance every column (and hence cell and segment) one time step. -/
def nextTimeStep (r : Region) : Region :=
  { r with columns := r.columns.enum.map fun p =>
      if (p.1 : Int) < r.numCols then nextColumnTimeStep p.2 else p.2 }

/-- runOnce: advance buffers, spatial pooling, temporal pooling. -/
def runOnce (r : Region) (input : List Int) (rng : List Nat) : Region × List Nat :=
  performTemporalPooling (performSpatialPooling (nextTimeStep r) input) rng

end CAnsi

namespace Cpp

/-!
Embedding of the object-oriented C++ variant (src/HTM/cpp).  The float
permanence parameters of Synapse.cpp are modelled as exact rationals.
Unlike the c_ansi variant, this variant caches nothing per step: segment
activity and synapse connection are recomputed on the fly from the live
permanences and cell flags, and a synapse's previous activity uses its
current connection state.  The pending-update queue and the operations
exercised only with temporal learning enabled (SegmentUpdateInfo
construction with its std::set sampling, applySegmentUpdates) are not
modelled; the step function below is runOnce specialised to temporal
learning disabled, under which all those branches drop out of the three
temporal phases and of Phase 3 entirely.
-/

/-- Synapses with permanences above this value are connected (0.2). -/
def CONNECTED_PERM : ℚ := mkRat 1 5

/-- Initial permanence for distal synapses (0.3). -/
def INITIAL_PERMANENCE : ℚ := mkRat 3 10

/-- Learning increment (0.015). -/
def PERMANENCE_INC : ℚ := mkRat 3 200

/-- Learning decrement (0.005). -/
def PERMANENCE_DEC : ℚ := mkRat 1 200

/-- Minimum synapse count used by getBestMatchingSegment
(src/HTM/cpp/Cell.cpp line 15). -/
def MIN_SYNAPSES_PER_SEGMENT_THRESHOLD : Int := 1

/-- A cell address, as in the c_ansi embedding. -/
abbrev CellId := Nat × Nat

/-- src/HTM/cpp/Synapse.h class Synapse. -/
structure Synapse where
  inputSource : CellId
  permanence : ℚ
deriving Repr, DecidableEq

/-- src/HTM/cpp/Segment.h class Segment. -/
structure Segment where
  synapses : List Synapse
  isSequence : Bool
  segActiveThreshold : Int
deriving Repr, DecidableEq

/-- src/HTM/cpp/Cell.h class Cell (pending-update queue omitted, see
the namespace comment). -/
structure Cell where
  isActive : Bool
  wasActive : Bool
  isPredicting : Bool
  wasPredicted : Bool
  isLearning : Bool
  wasLearning : Bool
  segments : List Segment
deriving Repr, DecidableEq

/-- src/HTM/cpp/Column.h class Column. -/
structure Column where
  cells : List Cell
  isActive : Bool
  proximalSegment : Segment
  boost : ℚ
  activeDutyCycle : ℚ
  overlapDutyCycle : ℚ
  overlap : Int
  ix : Int
  iy : Int
  cx : Int
  cy : Int
deriving Repr, DecidableEq

/-- src/HTM/cpp/Region.h class Region (input passed explicitly). -/
structure Region where
  inputWidth : Int
  inputHeight : Int
  localityRadius : Int
  cellsPerCol : Int
  segActiveThreshold : Int
  newSynapseCount : Int
  spatialLearning : Bool
  temporalLearning : Bool
  width : Int
  height : Int
  columns : List Column
  numCols : Int
deriving Repr, DecidableEq

def defaultSynapse : Synapse := { inputSource := (0, 0), permanence := 0 }

def defaultSegment : Segment :=
  { synapses := [], isSequence := false, segActiveThreshold := 0 }

def defaultCell : Cell :=
  { isActive := false, wasActive := false, isPredicting := false,
    wasPredicted := false, isLearning := false, wasLearning := false, segments := [] }

def defaultColumn : Column :=
  { cells := [], isActive := false, proximalSegment := defaultSegment, boost := 1,
    activeDutyCycle := 1, overlapDutyCycle := 1, overlap := 0,
    ix := 0, iy := 0, cx := 0, cy := 0 }

def getCol (r : Region) (i : Nat) : Column := r.columns.getD i defaultColumn

def getCell (r : Region) (id : CellId) : Cell :=
  (getCol r id.1).cells.getD id.2 defaultCell

def modifyCol (r : Region) (i : Nat) (f : Column → Column) : Region :=
  { r with columns := r.columns.set i (f (r.columns.getD i defaultColumn)) }

def modifyCell (r : Region) (id : CellId) (f : Cell → Cell) : Region :=
  modifyCol r id.1 fun col =>
    { col with cells := col.cells.set id.2 (f (col.cells.getD id.2 defaultCell)) }

/-- Synapse::isConnected: permanence at or above CONNECTED_PERM. -/
def isConnected (syn : Synapse) : Bool := decide (syn.permanence ≥ CONNECTED_PERM)

/-- Synapse::isActive. -/
def isSynapseActive (r : Region) (syn : Synapse) (connectedOnly : Bool) : Bool :=
  (getCell r syn.inputSource).isActive && (isConnected syn || !connectedOnly)

/-- Synapse::wasActive — note: uses the current connection state, there
is no previous-connection cache in this variant. -/
def wasSynapseActive (r : Region) (syn : Synapse) (connectedOnly : Bool) : Bool :=
  (getCell r syn.inputSource).wasActive && (isConnected syn || !connectedOnly)

/-- Synapse::wasActiveFromLearning. -/
def wasSynapseActiveFromLearning (r : Region) (syn : Synapse) : Bool :=
  wasSynapseActive r syn true && (getCell r syn.inputSource).wasLearning

/-- Segment::getActiveSynapseCount. -/
def getActiveSynapseCount (r : Region) (seg : Segment) (connectedOnly : Bool) : Int :=
  (seg.synapses.filter fun syn => isSynapseActive r syn connectedOnly).length

/-- Segment::getPrevActiveSynapseCount. -/
def getPrevActiveSynapseCount (r : Region) (seg : Segment) (connectedOnly : Bool) : Int :=
  (seg.synapses.filter fun syn => wasSynapseActive r syn connectedOnly).length

/-- Segment::isActive: enough currently active connected synapses. -/
def isSegmentActive (r : Region) (seg : Segment) : Bool :=
  (seg.synapses.filter fun syn => isSynapseActive r syn true).length
    ≥ seg.segActiveThreshold

/-- Segment::wasActive: enough previously active connected synapses. -/
def wasSegmentActive (r : Region) (seg : Segment) : Bool :=
  getPrevActiveSynapseCount r seg true ≥ seg.segActiveThreshold

/-- Segment::wasActiveFromLearning. -/
def wasSegmentActiveFromLearning (r : Region) (seg : Segment) : Bool :=
  ((seg.synapses.filter fun syn => wasSynapseActiveFromLearning r syn).length : Int)
    ≥ seg.segActiveThreshold

/-- The scan for the segment with the most previously active synapses,
starting from a current best (Cell.cpp lines 107-116). -/
def mostActivityGo (r : Region) : List Segment → Segment → Int → Segment
  | [], best, _ => best
  | seg :: rest, best, mostActiveSyns =>
    let activeSyns := getPrevActiveSynapseCount r seg true
    if activeSyns > mostActiveSyns then mostActivityGo r rest seg activeSyns
    else mostActivityGo r rest best mostActiveSyns

/-- Cell::getPreviousActiveSegment: a single previously active segment
is returned directly; with several, sequence segments take priority and
the remaining tie is broken by the most previously active synapses. -/
def getPreviousActiveSegment (r : Region) (cell : Cell) : Option Segment :=
  let activeSegs := cell.segments.filter (wasSegmentActive r)
  if activeSegs.length = 1 then activeSegs.head?
  else if activeSegs.length > 1 then
    let sequenceSegs := activeSegs.filter (fun seg => seg.isSequence)
    if sequenceSegs.length = 1 then sequenceSegs.head?
    else
      let pool := if sequenceSegs.length > 1 then sequenceSegs else activeSegs
      match pool with
      | [] => none
      | first :: rest =>
        some (mostActivityGo r rest first (getPrevActiveSynapseCount r first true))
  else none

/-- The raw (connectedOnly = false) active synapse count read at the
requested time reference (the synCount local of the source loops). -/
def rawSynCount (r : Region) (previous : Bool) (seg : Segment) : Int :=
  if previous then getPrevActiveSynapseCount r seg false
  else getActiveSynapseCount r seg false

/-- The loop of Cell::getBestMatchingSegment over segments whose
isSequence flag matches the selector. -/
def getBestMatchingSegmentGo (r : Region) (isSeq previous : Bool) :
    List Segment → Int → Option Segment → Option Segment
  | [], _, best => best
  | seg :: rest, bestSynapseCount, best =>
    if seg.isSequence = isSeq then
      if rawSynCount r previous seg > bestSynapseCount then
        getBestMatchingSegmentGo r isSeq previous rest (rawSynCount r previous seg) (some seg)
      else
        getBestMatchingSegmentGo r isSeq previous rest bestSynapseCount best
    else
      getBestMatchingSegmentGo r isSeq previous rest bestSynapseCount best

/-- Cell::getBestMatchingSegment: among segments whose isSequence flag
equals the selector, the one with the most raw (connected or not)
active synapses at the requested time, when that count strictly exceeds
MIN_SYNAPSES_PER_SEGMENT_THRESHOLD. -/
def getBestMatchingSegment (r : Region) (cell : Cell) (isSeq previous : Bool) :
    Option Segment :=
  getBestMatchingSegmentGo r isSeq previous cell.segments
    MIN_SYNAPSES_PER_SEGMENT_THRESHOLD none

/-- Cell::nextTimeStep: rotate the double-buffered flags. -/
def nextCellTimeStep (cell : Cell) : Cell :=
  { cell with
    wasActive := cell.isActive
    wasPredicted := cell.isPredicting
    wasLearning := cell.isLearning
    isActive := false
    isPredicting := false
    isLearning := false }

/-- Region::runOnce buffer advance over all columns. -/
def nextTimeStep (r : Region) : Region :=
  { r with columns := r.columns.enum.map fun p =>
      if (p.1 : Int) < r.numCols then
        { p.2 with cells := p.2.cells.map nextCellTimeStep }
      else p.2 }

/-- Region::performSpatialPooling under HARDCODE_SPATIAL (fixed true in
the source): column i is active exactly when input bit i is 1. -/
def performSpatialPooling (r : Region) (input : List Int) : Region :=
  if CAnsi.HARDCODE_SPATIAL then
    { r with columns := r.columns.enum.map fun p =>
        if (p.1 : Int) < r.numCols then
          { p.2 with isActive := decide (input.getD p.1 0 = 1) }
        else p.2 }
  else r

/-- Temporal pooling Phase 1 for one column with temporal learning
disabled: activate cells that were bottom-up predicted via a previously
active sequence segment, bursting the column when none was.  The
per-cell scan loop body is factored out as phase1ScanStep. -/
def phase1ScanStep (ci : Nat) (acc : Region × Bool) (c : Nat) : Region × Bool :=
  let r := acc.1
  let cell := getCell r (ci, c)
  if cell.wasPredicted then
    match getPreviousActiveSegment r cell with
    | some segment =>
      if segment.isSequence then
        (modifyCell r (ci, c) fun cell => { cell with isActive := true }, true)
      else acc
    | none => acc
  else acc

def phase1Column (r : Region) (ci : Nat) : Region :=
  let col := getCol r ci
  if col.isActive then
    let scan := (List.range col.cells.length).foldl (phase1ScanStep ci) (r, false)
    if !scan.2 then
      (List.range (getCol scan.1 ci).cells.length).foldl
        (fun r c => modifyCell r (ci, c) fun cell => { cell with isActive := true })
        scan.1
    else scan.1
  else r

/-- Temporal pooling Phase 2 for one cell with temporal learning
disabled: enter the predicting state when some segment is active (the
source scans segments in order, setting the flag at the first active
one). -/
def phase2Cell (r : Region) (cid : CellId) : Region :=
  if (getCell r cid).segments.any (isSegmentActive r) then
    modifyCell r cid fun cell => { cell with isPredicting := true }
  else r

/-- Region::runOnce with temporal learning disabled: buffers, spatial
pooling, Phase 1 over columns, Phase 2 over cells; Phase 3 returns
immediately without temporal learning. -/
def runOnceNoLearning (r : Region) (input : List Int) : Region :=
  let r := performSpatialPooling (nextTimeStep r) input
  let r := (List.range r.numCols.toNat).foldl (fun r ci => phase1Column r ci) r
  (List.range r.numCols.toNat).foldl
    (fun r ci =>
      (List.range (getCol r ci).cells.length).foldl
        (fun r c => phase2Cell r (ci, c)) r)
    r

/-- Synapse::increasePermanence: amount 0 selects the default
increment; the result is clamped above by 1. -/
def increasePermanence (syn : Synapse) (amount : ℚ) : Synapse :=
  let amount := if amount = 0 then PERMANENCE_INC else amount
  { syn with permanence := min 1 (syn.permanence + amount) }

/-- Synapse::decreasePermanence: amount 0 selects the default
decrement; the result is clamped below by 0. -/
def decreasePermanence (syn : Synapse) (amount : ℚ) : Synapse :=
  let amount := if amount = 0 then PERMANENCE_DEC else amount
  { syn with permanence := max 0 (syn.permanence - amount) }

end Cpp

/-!
## Claim-level definitions

Derived observers, spec-side counting functions, structural projections
and the concrete scenario states referenced by the claim theorems.
-/

namespace CAnsi

/-- Apply a sequence of permanence calls to a synapse; an entry
(true, a) is increaseSynapsePermanence with amount a, (false, a) is
decreaseSynapsePermanence with amount a. -/
def applyPermOps (syn : Synapse) (ops : List (Bool × Int)) : Synapse :=
  ops.foldl
    (fun syn op =>
      if op.1 then increaseSynapsePermanence syn op.2
      else decreaseSynapsePermanence syn op.2)
    syn

/-- A segment holds two synapses with the same source cell. -/
def hasDupSources (seg : Segment) : Bool :=
  !((seg.synapses.map fun s => s.inputSource).Nodup : Bool)

/-- Some segment of some cell of the region has a duplicated source. -/
def regionHasDupSynapse (r : Region) : Bool :=
  r.columns.any fun col => col.cells.any fun cell => cell.segments.any hasDupSources

/-- Run the region once per input vector, with an empty random stream
(every rand() draw reads 0). -/
def stepMany (r : Region) (inputs : List (List Int)) : Region :=
  inputs.foldl (fun r input => (runOnce r input []).1) r

/-- The columns the region's loops iterate over (indices 0..numCols-1). -/
def colList (r : Region) : List Column :=
  (List.range r.numCols.toNat).map (getCol r)

/-- Spec-side count: active columns. -/
def specNumActive (r : Region) : Nat :=
  ((colList r).filter fun col => col.isActive).length

/-- Spec-side count: columns containing a cell that was predicted via a
previously active sequence segment. -/
def specNumPredicted (r : Region) : Nat :=
  ((colList r).filter fun col => col.cells.any cellCorrectlyPredicted).length

/-- Spec-side count: active columns containing such a cell. -/
def specNumCorrect (r : Region) : Nat :=
  ((colList r).filter fun col =>
    col.isActive && col.cells.any cellCorrectlyPredicted).length

/-- Projection of a synapse to the state the learning frame claim is
about: its source and permanence. -/
def synStruct (s : Synapse) : CellId × Int := (s.inputSource, s.permanence)

/-- Projection of a segment to its learned structure: synapse sources
and permanences, sequence flag, prediction steps and threshold (the
cached per-step activity counts and connection flags are excluded). -/
def segStruct (g : Segment) : List (CellId × Int) × Bool × Int × Int :=
  (g.synapses.map synStruct, g.isSequence, g.predictionSteps, g.segActiveThreshold)

/-- Projection of a cell to its learned structure: segments and the
pending update queue (the activity flags are excluded). -/
def cellStruct (c : Cell) : List (List (CellId × Int) × Bool × Int × Int) ×
    List SegmentUpdateInfo :=
  (c.segments.map segStruct, c.segmentUpdates)

/-- Projection of a column to its learned structure (activity and duty
cycles excluded; the proximal segment is carried whole). -/
def colStruct (col : Column) :
    (List (List (List (CellId × Int) × Bool × Int × Int) ×
      List SegmentUpdateInfo)) × Segment :=
  (col.cells.map cellStruct, col.proximalSegment)

/-- The learned structure of the whole region. -/
def structOf (r : Region) := r.columns.map colStruct

/-- Every cell's pending update queue is empty. -/
def queuesEmpty (r : Region) : Prop :=
  ∀ col ∈ r.columns, ∀ c ∈ col.cells, c.segmentUpdates = []

end CAnsi

namespace Cpp

/-- Apply a sequence of permanence calls to a synapse; an entry
(true, a) is increasePermanence with amount a, (false, a) is
decreasePermanence with amount a. -/
def applyPermOps (syn : Synapse) (ops : List (Bool × ℚ)) : Synapse :=
  ops.foldl
    (fun syn op =>
      if op.1 then increasePermanence syn op.2 else decreasePermanence syn op.2)
    syn

/-- The previously active segments of a cell, in order. -/
def prevActiveSegs (r : Region) (cell : Cell) : List Segment :=
  cell.segments.filter (wasSegmentActive r)

/-- Whether some previously active segment is a sequence segment. -/
def hasPrevActiveSequence (r : Region) (cell : Cell) : Bool :=
  (prevActiveSegs r cell).any fun seg => seg.isSequence

/-- The segments eligible to be returned by getPreviousActiveSegment:
the previously active sequence segments when there are any, otherwise
all previously active segments. -/
def eligibleSegs (r : Region) (cell : Cell) : List Segment :=
  if hasPrevActiveSequence r cell then
    (prevActiveSegs r cell).filter fun seg => seg.isSequence
  else prevActiveSegs r cell

end Cpp

/-! ### State correspondence between the two variants

A c_ansi region and a cpp region mirror each other when they have the
same topology, the same flags on every cell and column, and segments
that agree on sequence flag, threshold, synapse sources and permanence
up to the two permanence scales (integer 0..10000 versus rational
0..1). -/

def mirrorsSynapse (sa : CAnsi.Synapse) (sc : Cpp.Synapse) : Bool :=
  sa.inputSource == sc.inputSource && mkRat sa.permanence 10000 == sc.permanence

def mirrorsSegment (ga : CAnsi.Segment) (gc : Cpp.Segment) : Bool :=
  ga.isSequence == gc.isSequence &&
  ga.segActiveThreshold == gc.segActiveThreshold &&
  ga.synapses.length == gc.synapses.length &&
  (ga.synapses.zip gc.synapses).all fun p => mirrorsSynapse p.1 p.2

def mirrorsCell (ca : CAnsi.Cell) (cc : Cpp.Cell) : Bool :=
  ca.isActive == cc.isActive && ca.wasActive == cc.wasActive &&
  ca.isPredicting == cc.isPredicting && ca.wasPredicted == cc.wasPredicted &&
  ca.isLearning == cc.isLearning && ca.wasLearning == cc.wasLearning &&
  ca.segments.length == cc.segments.length &&
  (ca.segments.zip cc.segments).all fun p => mirrorsSegment p.1 p.2

def mirrorsColumn (ca : CAnsi.Column) (cc : Cpp.Column) : Bool :=
  ca.isActive == cc.isActive &&
  ca.cells.length == cc.cells.length &&
  (ca.cells.zip cc.cells).all fun p => mirrorsCell p.1 p.2

def mirrorsRegion (ra : CAnsi.Region) (rc : Cpp.Region) : Bool :=
  ra.width == rc.width && ra.height == rc.height && ra.numCols == rc.numCols &&
  ra.cellsPerCol == rc.cellsPerCol &&
  ra.segActiveThreshold == rc.segActiveThreshold &&
  ra.newSynapseCount == rc.newSynapseCount &&
  ra.localityRadius == rc.localityRadius &&
  ra.spatialLearning == rc.spatialLearning &&
  ra.temporalLearning == rc.temporalLearning &&
  ra.columns.length == rc.columns.length &&
  (ra.columns.zip rc.columns).all fun p => mirrorsColumn p.1 p.2

/-! ### Scenario states

Concrete states referenced by the claim theorems. -/

/-- A two-column, two-cells-per-column pair of mirrored states, reached
by a learning run that built one sequence segment on cell (0,0) wired
to cell (1,0), with temporal learning then disabled: cell (0,0) is
predicting via that segment, cell (1,0) is active, and both regions
carry the same hyperparameters.  The c_ansi per-step caches hold the
values the last processSegment pass computed for this state (one active
connected synapse, segment active at threshold 1). -/
def c1SegA : CAnsi.Segment :=
  { synapses := [{ inputSource := (1, 0), permanence := 3000,
                   isConnected := true, wasConnected := false }]
    isSequence := true, predictionSteps := 1, segActiveThreshold := 1
    isActive := true, wasActive := false
    numActiveConnectedSyns := 1, numPrevActiveConnectedSyns := 0
    numActiveAllSyns := 1, numPrevActiveAllSyns := 0 }

def c1RegionA : CAnsi.Region :=
  { inputWidth := 2, inputHeight := 1, localityRadius := 0, cellsPerCol := 2
    segActiveThreshold := 1, newSynapseCount := 1
    pctInputPerCol := 1, pctMinOverlap := 1, pctLocalActivity := 1
    spatialLearning := false, temporalLearning := false
    width := 2, height := 1, xSpace := 1, ySpace := 1
    columns :=
      [ { CAnsi.defaultColumn with
            cells := [{ CAnsi.defaultCell with
                          isPredicting := true, predictionSteps := 1
                          segments := [c1SegA] },
                      CAnsi.defaultCell] },
        { CAnsi.defaultColumn with
            cells := [{ CAnsi.defaultCell with isActive := true },
                      CAnsi.defaultCell]
            cx := 1, ix := 1 } ]
    numCols := 2, minOverlap := 1, desiredLocalActivity := 1 }

def c1SegC : Cpp.Segment :=
  { synapses := [{ inputSource := (1, 0), permanence := mkRat 3 10 }]
    isSequence := true, segActiveThreshold := 1 }

def c1RegionC : Cpp.Region :=
  { inputWidth := 2, inputHeight := 1, localityRadius := 0, cellsPerCol := 2
    segActiveThreshold := 1, newSynapseCount := 1
    spatialLearning := false, temporalLearning := false
    width := 2, height := 1
    columns :=
      [ { Cpp.defaultColumn with
            cells := [{ Cpp.defaultCell with
                          isPredicting := true, segments := [c1SegC] },
                      Cpp.defaultCell] },
        { Cpp.defaultColumn with
            cells := [{ Cpp.defaultCell with isActive := true },
                      Cpp.defaultCell]
            cx := 1, ix := 1 } ]
    numCols := 2 }

/-- The per-cell activity flags of every column of a c_ansi region. -/
def cAnsiActives (r : CAnsi.Region) : List (List Bool) :=
  r.columns.map fun col => col.cells.map fun cell => cell.isActive

/-- The per-cell activity flags of every column of a cpp region. -/
def cppActives (r : Cpp.Region) : List (List Bool) :=
  r.columns.map fun col => col.cells.map fun cell => cell.isActive

/-- The two-column hardcoded region of the two-column test
(newRegionHardcoded(2,1, 0, 1, 1,1)). -/
def c2Region0 : CAnsi.Region := CAnsi.newRegionHardcoded 2 1 0 1 1 1

/-- After performSpatialPooling on input [1,0]. -/
def c2AfterSP : CAnsi.Region := CAnsi.performSpatialPooling c2Region0 [1, 0]

/-- After the following performTemporalPooling. -/
def c2AfterTP : CAnsi.Region := (CAnsi.performTemporalPooling c2AfterSP []).1

/-- After runOnce on the next step's input [0,1]. -/
def c2Step2 : CAnsi.Region := (CAnsi.runOnce c2AfterTP [0, 1] []).1

/-- Input schedule on a 5x1 hardcoded region (cellsPerCol 1,
segActiveThreshold 1, newSynapseCount 3) that leaves two stale
Phase-2 updates targeting the same segment of cell (0,0) in its queue,
then applies them positively in one step. -/
def c3Inputs : List (List Int) :=
  [ [0, 0, 0, 1, 1],
    [1, 0, 0, 0, 0],
    [0, 0, 0, 1, 1],
    [0, 0, 0, 1, 0],
    [1, 0, 0, 0, 0],
    [0, 1, 0, 1, 1],
    [0, 1, 0, 1, 1],
    [0, 0, 0, 1, 1],
    [1, 0, 0, 0, 0] ]

def c3Region0 : CAnsi.Region := CAnsi.newRegionHardcoded 5 1 0 1 1 3

def c3Final : CAnsi.Region := CAnsi.stepMany c3Region0 c3Inputs

/-- A 3x1 hardcoded region with localityRadius 1: column 2's cell
learns on step one, and on step two column 0's cell samples it as a
candidate although it is two columns away. -/
def c4Region0 : CAnsi.Region := CAnsi.newRegionHardcoded 3 1 1 1 1 1

def c4Final : CAnsi.Region := CAnsi.stepMany c4Region0 [[0, 0, 1], [1, 0, 0]]

/-- A cell with a single segment whose previous-active connected count
equals its threshold: its wasActive flag (set by the ≥-threshold rule
of processSegment) is true, yet getPreviousActiveSegment demands a
strictly greater count. -/
def c6Cell : CAnsi.Cell :=
  { CAnsi.defaultCell with
    wasPredicted := true
    segments := [{ synapses := [{ inputSource := (1, 0), permanence := 3000,
                                  isConnected := false, wasConnected := true }]
                   isSequence := true, predictionSteps := 1, segActiveThreshold := 1
                   isActive := false, wasActive := true
                   numActiveConnectedSyns := 0, numPrevActiveConnectedSyns := 1
                   numActiveAllSyns := 0, numPrevActiveAllSyns := 1 }] }

/-- A matching segment whose raw previous active count is only 1 (not
returnable by getBestMatchingSegment). -/
def c7SegLow : CAnsi.Segment :=
  { CAnsi.defaultSegment with
    isSequence := true, predictionSteps := 1, segActiveThreshold := 1
    numPrevActiveAllSyns := 1 }

/-- A matching segment with raw previous active count 3 (the best
match). -/
def c7SegBest : CAnsi.Segment :=
  { CAnsi.defaultSegment with
    isSequence := true, predictionSteps := 1, segActiveThreshold := 1
    numPrevActiveAllSyns := 3 }

/-- A cell holding both segments above. -/
def c7Cell : CAnsi.Cell :=
  { CAnsi.defaultCell with segments := [c7SegLow, c7SegBest] }

/-- A cpp region whose cell (0,0) has one sequence segment wired to the
previously active cell (1,0) through a connected synapse. -/
def c6CppRegion : Cpp.Region :=
  { inputWidth := 2, inputHeight := 1, localityRadius := 0, cellsPerCol := 1
    segActiveThreshold := 1, newSynapseCount := 1
    spatialLearning := false, temporalLearning := true
    width := 2, height := 1
    columns :=
      [ { Cpp.defaultColumn with
            cells := [{ Cpp.defaultCell with
                          segments := [{ synapses := [{ inputSource := (1, 0),
                                                        permanence := mkRat 3 10 }]
                                         isSequence := true
                                         segActiveThreshold := 1 }] }] },
        { Cpp.defaultColumn with
            cells := [{ Cpp.defaultCell with wasActive := true }]
            cx := 1, ix := 1 } ]
    numCols := 2 }

/-- The cell (0,0) of c6CppRegion. -/
def c6CppCell : Cpp.Cell := Cpp.getCell c6CppRegion (0, 0)

/-- Projection of the cpp region to its learned structure: every cell's
segment list (synapses with their permanences, flags, thresholds) and
every column's proximal segment.  The temporal-learning-disabled step
functions touch only cell and column activity flags. -/
def cppStructOf (r : Cpp.Region) : List (List (List Cpp.Segment) × Cpp.Segment) :=
  r.columns.map fun col => (col.cells.map Cpp.Cell.segments, col.proximalSegment)

/-- A two-column hardcoded region with temporal learning switched off
(newRegionHardcoded always switches it on), for the learning-frame
claim. -/
def c10Region : CAnsi.Region :=
  { CAnsi.newRegionHardcoded 2 1 0 1 1 1 with temporalLearning := false }

/-!
## Theorems

General helper lemmas first, then one theorem per claim (with a
counterexample and a witness where required).
-/

/-- A foldl preserves any invariant its step function preserves. -/
theorem foldl_preserves {σ β : Type} (f : σ → β → σ) (inv : σ → Prop)
    (h : ∀ s b, inv s → inv (f s b)) :
    ∀ (l : List β) (s : σ), inv s → inv (l.foldl f s)
  | [], _, hs => hs
  | b :: l, s, hs => foldl_preserves f inv h l (f s b) (h s b hs)

/-- Mapping a projection over a list is unchanged by overwriting an
entry with an image (under some g) of itself, when the projection does
not see g. -/
theorem map_set_struct {α β : Type} (f : α → β) (g : α → α)
    (hg : ∀ a, f (g a) = f a) :
    ∀ (l : List α) (i : Nat) (d : α),
      (l.set i (g (l.getD i d))).map f = l.map f
  | [], _, _ => rfl
  | a :: l, 0, d => by simp [List.set, hg a]
  | a :: l, i + 1, d => by
    simp only [List.getD_cons_succ, List.set_cons_succ, List.map_cons]
    exact congrArg _ (map_set_struct f g hg l i d)

/-- Membership-style facts transfer along equal map images. -/
theorem forall_mem_of_map_eq {α β : Type} {f : α → β} {P : α → Prop}
    (hf : ∀ a b, f a = f b → P b → P a) :
    ∀ {l' l : List α}, l'.map f = l.map f → (∀ a ∈ l, P a) → (∀ a ∈ l', P a)
  | [], _, _, _ => by intro a ha; cases ha
  | a' :: t', l, h, hl => by
    cases l with
    | nil => cases h
    | cons b t =>
      simp only [List.map_cons, List.cons.injEq] at h
      intro a ha
      rcases List.mem_cons.mp ha with rfl | ha
      · exact hf a b h.1 (hl b (List.mem_cons_self b t))
      · exact forall_mem_of_map_eq hf h.2 (fun x hx => hl x (List.mem_cons_of_mem b hx)) a ha

/-- Claim C2: in the two-column hardcoded region with temporal learning
on, input [1,0] makes column 0 active and column 1 inactive after
spatial pooling; after temporal pooling column 0's cell is active and
learning while column 1's cell is inactive; presenting [0,1] on the
following step creates exactly one new distal segment on column 1's
cell containing exactly one synapse whose source is column 0's cell. -/
theorem claim2_two_column_test :
    c2Region0.temporalLearning = true ∧
    (CAnsi.getCol c2AfterSP 0).isActive = true ∧
    (CAnsi.getCol c2AfterSP 1).isActive = false ∧
    (CAnsi.getCell c2AfterTP (0, 0)).isActive = true ∧
    (CAnsi.getCell c2AfterTP (0, 0)).isLearning = true ∧
    (CAnsi.getCell c2AfterTP (1, 0)).isActive = false ∧
    (CAnsi.getCell c2AfterTP (1, 0)).segments.length = 0 ∧
    (CAnsi.getCell c2Step2 (1, 0)).segments.length = 1 ∧
    ((CAnsi.getCell c2Step2 (1, 0)).segments.headD CAnsi.defaultSegment).synapses.length
      = 1 ∧
    (((CAnsi.getCell c2Step2 (1, 0)).segments.headD
        CAnsi.defaultSegment).synapses.headD CAnsi.defaultSynapse).inputSource
      = (0, 0) := by
  decide

set_option maxRecDepth 8000 in
/-- Claim C3 (failing run): after the nine-step c3Inputs schedule, the
prediction-steps-2 segment of cell (0,0) holds two synapses with the
same source cell (1,0): two stale Phase-2 updates from consecutive
predicting steps both targeted that segment, each sampled cell (1,0)
into its candidate set (the duplicate check only consults the synapses
existing when each update was queued), and the single positive
application of the queue added both. -/
theorem claim3_duplicate_synapse_run :
    CAnsi.regionHasDupSynapse c3Final = true ∧
    ((CAnsi.getCell c3Final (0, 0)).segments.getD 1 CAnsi.defaultSegment).synapses.map
        (fun s => s.inputSource)
      = [(3, 0), (4, 0), (1, 0), (1, 0)] := by
  decide

/-- Claim C4 (failing run): with localityRadius 1 on a 3x1 hardcoded
region, the update queued for column 0's cell samples column 2's cell
(two columns away) as a candidate, and applying it creates a synapse
sourced there: the locality restriction is an unimplemented TODO in
initSegmentUpdateInfo. -/
theorem claim4_locality_radius_ignored :
    c4Final.localityRadius = 1 ∧
    ((CAnsi.getCell c4Final (0, 0)).segments.map fun seg =>
      seg.synapses.map fun s => s.inputSource) = [[(2, 0)]] := by
  decide

/-- Claim C9 (counterexample): construction with the invalid
hyperparameter segActiveThreshold = 0 does not fail: it returns a
region with both columns, their cells and their proximal segments fully
built, carrying the invalid threshold. -/
theorem claim9_counterexample :
    (CAnsi.newRegionHardcoded 2 1 0 1 0 1).segActiveThreshold = 0 ∧
    (CAnsi.newRegionHardcoded 2 1 0 1 0 1).columns.length = 2 ∧
    ((CAnsi.newRegionHardcoded 2 1 0 1 0 1).columns.headD
        CAnsi.defaultColumn).cells.length = 1 ∧
    ((CAnsi.newRegionHardcoded 2 1 0 1 0 1).columns.headD
        CAnsi.defaultColumn).proximalSegment.segActiveThreshold = 0 := by
  decide

/-- Claim C9 (amended): region construction never rejects its
hyperparameters; for every argument tuple it builds the full
width*height column grid, every column carrying cellsPerCol cells and a
proximal segment holding the given threshold as-is. -/
theorem claim9_construction_never_fails (x y lr cpc sat nsc : Int) :
    (CAnsi.newRegionHardcoded x y lr cpc sat nsc).columns.length = (x * y).toNat ∧
    ∀ col ∈ (CAnsi.newRegionHardcoded x y lr cpc sat nsc).columns,
      col.cells.length = cpc.toNat ∧
      col.proximalSegment.segActiveThreshold = sat := by
  constructor
  · simp [CAnsi.newRegionHardcoded]
  · intro col hcol
    simp only [CAnsi.newRegionHardcoded, List.mem_map] at hcol
    obtain ⟨i, -, rfl⟩ := hcol
    simp [CAnsi.initColumn, CAnsi.initSegment, CAnsi.initCell]

/-- Claim C6 (counterexample, c_ansi variant): a cell with one segment
whose previous-active connected synapse count equals its threshold (so
the segment's wasActive flag, set by the ≥ rule of processSegment, is
true), yet getPreviousActiveSegment returns null, since it demands a
strictly greater count — refuting "returns null iff the cell has no
segment that was active at t-1". -/
theorem claim6_counterexample :
    (c6Cell.segments.any fun seg => seg.wasActive) = true ∧
    ((c6Cell.segments.headD CAnsi.defaultSegment).numPrevActiveConnectedSyns
      = (c6Cell.segments.headD CAnsi.defaultSegment).segActiveThreshold) ∧
    CAnsi.getPreviousActiveSegment c6Cell = none := by
  decide

/-- Claim C1 (counterexample): two mirrored states of the two variants
(same topology, hyperparameters, cell flags, segments and synapses up
to the permanence scale; both with temporal learning off, so the step
consumes no random draws), stepped on the same input [1,0], produce
different active cells: the cpp variant treats the prediction segment
as previously active (count 1 ≥ threshold 1) and activates only the
predicted cell, while the c_ansi variant demands a strictly greater
count, sees no previously active segment, and bursts the whole
column. -/
theorem claim1_counterexample :
    mirrorsRegion c1RegionA c1RegionC = true ∧
    cAnsiActives (CAnsi.runOnce c1RegionA [1, 0] []).1
      = [[true, true], [false, false]] ∧
    cppActives (Cpp.runOnceNoLearning c1RegionC [1, 0])
      = [[true, false], [false, false]] := by
  refine ⟨by decide, by decide, by decide⟩

/-- One c_ansi permanence call keeps the permanence in 0..MAX_PERM. -/
theorem cansi_perm_step_bounds (syn : CAnsi.Synapse) (op : Bool × Int)
    (h0 : 0 ≤ syn.permanence) (h1 : syn.permanence ≤ CAnsi.MAX_PERM)
    (hop : 0 ≤ op.2) :
    0 ≤ (if op.1 then CAnsi.increaseSynapsePermanence syn op.2
         else CAnsi.decreaseSynapsePermanence syn op.2).permanence ∧
    (if op.1 then CAnsi.increaseSynapsePermanence syn op.2
     else CAnsi.decreaseSynapsePermanence syn op.2).permanence ≤ CAnsi.MAX_PERM := by
  rcases op with ⟨b, a⟩
  have hMAX : (0 : Int) ≤ CAnsi.MAX_PERM := by decide
  cases b <;>
    simp only [CAnsi.increaseSynapsePermanence, CAnsi.decreaseSynapsePermanence,
      if_true, if_false, Bool.false_eq_true, ite_false, ite_true]
  · constructor
    · exact le_max_left 0 _
    · refine max_le hMAX ?_
      refine le_trans (sub_le_self _ ?_) h1
      split <;> [decide; assumption]
  · constructor
    · refine le_min hMAX ?_
      refine add_nonneg h0 ?_
      split <;> [decide; assumption]
    · exact min_le_left _ _

/-- All c_ansi permanence call sequences keep the permanence in
0..MAX_PERM. -/
theorem cansi_applyPermOps_bounds :
    ∀ (ops : List (Bool × Int)) (syn : CAnsi.Synapse),
      0 ≤ syn.permanence → syn.permanence ≤ CAnsi.MAX_PERM →
      (∀ op ∈ ops, 0 ≤ op.2) →
      0 ≤ (CAnsi.applyPermOps syn ops).permanence ∧
        (CAnsi.applyPermOps syn ops).permanence ≤ CAnsi.MAX_PERM
  | [], syn, h0, h1, _ => ⟨h0, h1⟩
  | op :: ops, syn, h0, h1, hops => by
    have hstep := cansi_perm_step_bounds syn op h0 h1 (hops op (List.mem_cons_self op ops))
    have := cansi_applyPermOps_bounds ops
      (if op.1 then CAnsi.increaseSynapsePermanence syn op.2
       else CAnsi.decreaseSynapsePermanence syn op.2)
      hstep.1 hstep.2 (fun o ho => hops o (List.mem_cons_of_mem op ho))
    simpa [CAnsi.applyPermOps] using this

/-- One cpp permanence call keeps the permanence in 0..1. -/
theorem cpp_perm_step_bounds (syn : Cpp.Synapse) (op : Bool × ℚ)
    (h0 : 0 ≤ syn.permanence) (h1 : syn.permanence ≤ 1) (hop : 0 ≤ op.2) :
    0 ≤ (if op.1 then Cpp.increasePermanence syn op.2
         else Cpp.decreasePermanence syn op.2).permanence ∧
    (if op.1 then Cpp.increasePermanence syn op.2
     else Cpp.decreasePermanence syn op.2).permanence ≤ 1 := by
  rcases op with ⟨b, a⟩
  cases b <;>
    simp only [Cpp.increasePermanence, Cpp.decreasePermanence,
      if_true, if_false, Bool.false_eq_true, ite_false, ite_true]
  · constructor
    · exact le_max_left 0 _
    · refine max_le zero_le_one ?_
      refine le_trans (sub_le_self _ ?_) h1
      split
      · exact le_of_lt (by norm_num [Cpp.PERMANENCE_DEC])
      · assumption
  · constructor
    · refine le_min zero_le_one ?_
      refine add_nonneg h0 ?_
      split
      · exact le_of_lt (by norm_num [Cpp.PERMANENCE_INC])
      · assumption
    · exact min_le_left _ _

/-- All cpp permanence call sequences keep the permanence in 0..1. -/
theorem cpp_applyPermOps_bounds :
    ∀ (ops : List (Bool × ℚ)) (syn : Cpp.Synapse),
      0 ≤ syn.permanence → syn.permanence ≤ 1 →
      (∀ op ∈ ops, 0 ≤ op.2) →
      0 ≤ (Cpp.applyPermOps syn ops).permanence ∧
        (Cpp.applyPermOps syn ops).permanence ≤ 1
  | [], syn, h0, h1, _ => ⟨h0, h1⟩
  | op :: ops, syn, h0, h1, hops => by
    have hstep := cpp_perm_step_bounds syn op h0 h1 (hops op (List.mem_cons_self op ops))
    have := cpp_applyPermOps_bounds ops
      (if op.1 then Cpp.increasePermanence syn op.2 else Cpp.decreasePermanence syn op.2)
      hstep.1 hstep.2 (fun o ho => hops o (List.mem_cons_of_mem op ho))
    simpa [Cpp.applyPermOps] using this

/-- Claim C5: from a permanence inside the valid range, every finite
sequence of increasePermanence/decreasePermanence calls with
non-negative amounts (amount 0 selecting the defaults) keeps the
permanence within 0..1 in the float (cpp) variant and within 0..10000
in the integer-scaled (c_ansi) variant after every call — every prefix
of calls being itself such a sequence. -/
theorem claim5_permanence_bounds (synA : CAnsi.Synapse) (opsA : List (Bool × Int))
    (synC : Cpp.Synapse) (opsC : List (Bool × ℚ))
    (hA0 : 0 ≤ synA.permanence) (hA1 : synA.permanence ≤ CAnsi.MAX_PERM)
    (hAops : ∀ op ∈ opsA, 0 ≤ op.2)
    (hC0 : 0 ≤ synC.permanence) (hC1 : synC.permanence ≤ 1)
    (hCops : ∀ op ∈ opsC, 0 ≤ op.2) :
    (0 ≤ (CAnsi.applyPermOps synA opsA).permanence ∧
      (CAnsi.applyPermOps synA opsA).permanence ≤ CAnsi.MAX_PERM) ∧
    (0 ≤ (Cpp.applyPermOps synC opsC).permanence ∧
      (Cpp.applyPermOps synC opsC).permanence ≤ 1) :=
  ⟨cansi_applyPermOps_bounds opsA synA hA0 hA1 hAops,
   cpp_applyPermOps_bounds opsC synC hC0 hC1 hCops⟩

/-- Witness for claim C5 at a concrete synapse and call sequence. -/
theorem claim5_permanence_bounds_witness :
    (0 ≤ (CAnsi.applyPermOps (CAnsi.initSynapse (0, 0) 3000)
        [(true, 0), (false, 7), (false, 0)]).permanence ∧
      (CAnsi.applyPermOps (CAnsi.initSynapse (0, 0) 3000)
        [(true, 0), (false, 7), (false, 0)]).permanence ≤ CAnsi.MAX_PERM) ∧
    (0 ≤ (Cpp.applyPermOps Cpp.defaultSynapse
        [(true, 0), (false, mkRat 1 100)]).permanence ∧
      (Cpp.applyPermOps Cpp.defaultSynapse
        [(true, 0), (false, mkRat 1 100)]).permanence ≤ 1) :=
  claim5_permanence_bounds (CAnsi.initSynapse (0, 0) 3000)
    [(true, 0), (false, 7), (false, 0)] Cpp.defaultSynapse
    [(true, 0), (false, mkRat 1 100)]
    (by decide) (by decide) (by decide) (by decide) (by decide) (by decide)

/-- The getLastAccuracy loop accumulates the three column counts. -/
theorem accuracy_counts :
    ∀ (cols : List CAnsi.Column) (p a ap : Int),
      cols.foldl CAnsi.accuracyStep (p, a, ap) =
        (p + ((cols.filter fun col =>
            col.cells.any CAnsi.cellCorrectlyPredicted).length : Int),
         a + ((cols.filter fun col => col.isActive).length : Int),
         ap + ((cols.filter fun col =>
            col.isActive && col.cells.any CAnsi.cellCorrectlyPredicted).length : Int))
  | [], p, a, ap => by simp
  | col :: cols, p, a, ap => by
    simp only [List.foldl_cons, accuracy_counts cols]
    simp only [CAnsi.accuracyStep, List.filter_cons]
    by_cases h1 : col.isActive <;>
      by_cases h2 : (col.cells.any CAnsi.cellCorrectlyPredicted) = true <;>
        simp only [h1, h2, Bool.true_and, Bool.false_and, if_true, if_false,
          Bool.false_eq_true, ite_true, ite_false, List.length_cons] <;>
        push_cast <;> ring_nf

/-- Claim C8: getLastAccuracy returns activation accuracy = (number of
active columns containing a cell that was predicted via a previously
active sequence segment) / (number of active columns) and prediction
accuracy = the same numerator / (number of columns containing any such
sequence-predicted cell), each ratio being 0 when its denominator is 0;
in particular both are 0 when no column is active and none was
predicted. -/
theorem claim8_accuracy (r : CAnsi.Region) :
    CAnsi.getLastAccuracy r =
      ((if CAnsi.specNumActive r = 0 then 0
        else (CAnsi.specNumCorrect r : ℚ) / (CAnsi.specNumActive r : ℚ)),
       (if CAnsi.specNumPredicted r = 0 then 0
        else (CAnsi.specNumCorrect r : ℚ) / (CAnsi.specNumPredicted r : ℚ))) := by
  have hfold : (List.range r.numCols.toNat).foldl
      (fun acc i => CAnsi.accuracyStep acc (CAnsi.getCol r i)) ((0 : Int), (0 : Int), (0 : Int))
      = (CAnsi.colList r).foldl CAnsi.accuracyStep (0, 0, 0) :=
    (List.foldl_map (CAnsi.getCol r) CAnsi.accuracyStep (List.range r.numCols.toNat)
      (0, 0, 0)).symm
  have key : ∀ num den : Nat,
      (if ((den : Int)) > 0 then (((num : Int)) : ℚ) / (((den : Int)) : ℚ) else 0)
        = (if den = 0 then 0 else (num : ℚ) / (den : ℚ)) := by
    intro num den
    by_cases h : den = 0
    · simp [h]
    · have hpos : ((den : Int)) > 0 := Int.natCast_pos.mpr (Nat.pos_of_ne_zero h)
      rw [if_pos hpos, if_neg h]
      push_cast
      rfl
  unfold CAnsi.getLastAccuracy
  rw [hfold, accuracy_counts (CAnsi.colList r) 0 0 0]
  simp only [zero_add]
  unfold CAnsi.specNumActive CAnsi.specNumCorrect CAnsi.specNumPredicted
  rw [Prod.mk.injEq]
  exact ⟨key _ _, key _ _⟩

/-- Once getBestMatchingSegmentGo holds a best segment it never returns
none. -/
theorem cansi_bmsGo_isSome (target : Int) (prev : Bool) :
    ∀ (l : List (Nat × CAnsi.Segment)) (m : Int) (p : Nat × CAnsi.Segment),
      (CAnsi.getBestMatchingSegmentGo target prev l m (some p)).isSome = true
  | [], _, _ => rfl
  | (j, g) :: l, m, p => by
    simp only [CAnsi.getBestMatchingSegmentGo]
    split
    · split
      · exact cansi_bmsGo_isSome target prev l _ _
      · exact cansi_bmsGo_isSome target prev l m p
    · exact cansi_bmsGo_isSome target prev l m p

/-- Starting from no best, getBestMatchingSegmentGo returns none exactly
when no matching entry strictly beats the running floor. -/
theorem cansi_bmsGo_none_iff (target : Int) (prev : Bool) :
    ∀ (l : List (Nat × CAnsi.Segment)) (m : Int),
      CAnsi.getBestMatchingSegmentGo target prev l m none = none ↔
        ∀ p ∈ l, p.2.predictionSteps = target → CAnsi.rawSynCount prev p.2 ≤ m
  | [], m => by simp [CAnsi.getBestMatchingSegmentGo]
  | (j, g) :: l, m => by
    simp only [CAnsi.getBestMatchingSegmentGo]
    split
    · rename_i hsteps
      split
      · rename_i hcount
        constructor
        · intro hnone
          have hsome := cansi_bmsGo_isSome target prev l (CAnsi.rawSynCount prev g) (j, g)
          rw [hnone] at hsome
          cases hsome
        · intro hall
          have hg : CAnsi.rawSynCount prev g ≤ m :=
            hall (j, g) (List.mem_cons_self _ _) hsteps
          omega
      · rename_i hcount
        rw [cansi_bmsGo_none_iff target prev l m]
        constructor
        · intro hall p hp hpsteps
          rcases List.mem_cons.mp hp with rfl | hp
          · show CAnsi.rawSynCount prev g ≤ m
            omega
          · exact hall p hp hpsteps
        · intro hall p hp hpsteps
          exact hall p (List.mem_cons_of_mem _ hp) hpsteps
    · rename_i hsteps
      rw [cansi_bmsGo_none_iff target prev l m]
      constructor
      · intro hall p hp hpsteps
        rcases List.mem_cons.mp hp with rfl | hp
        · exact absurd hpsteps hsteps
        · exact hall p hp hpsteps
      · intro hall p hp hpsteps
        exact hall p (List.mem_cons_of_mem _ hp) hpsteps

/-- A segment returned by getBestMatchingSegmentGo is the incoming best
or a matching list entry strictly beating the incoming floor. -/
theorem cansi_bmsGo_some_cases (target : Int) (prev : Bool) :
    ∀ (l : List (Nat × CAnsi.Segment)) (m : Int) (best : Option (Nat × CAnsi.Segment))
      (i : Nat) (seg : CAnsi.Segment),
      CAnsi.getBestMatchingSegmentGo target prev l m best = some (i, seg) →
      best = some (i, seg) ∨
        ((i, seg) ∈ l ∧ seg.predictionSteps = target ∧ m < CAnsi.rawSynCount prev seg)
  | [], m, best, i, seg => fun h => Or.inl h
  | (j, g) :: l, m, best, i, seg => by
    simp only [CAnsi.getBestMatchingSegmentGo]
    split
    · rename_i hsteps
      split
      · rename_i hcount
        intro h
        rcases cansi_bmsGo_some_cases target prev l _ _ i seg h with heq | ⟨hmem, hs, hc⟩
        · have hpair := Option.some.inj heq
          injection hpair with h1 h2
          subst h1
          subst h2
          exact Or.inr ⟨List.mem_cons_self _ _, hsteps, hcount⟩
        · refine Or.inr ⟨List.mem_cons_of_mem _ hmem, hs, ?_⟩
          omega
      · intro h
        rcases cansi_bmsGo_some_cases target prev l m best i seg h with heq | ⟨hmem, hs, hc⟩
        · exact Or.inl heq
        · exact Or.inr ⟨List.mem_cons_of_mem _ hmem, hs, hc⟩
    · intro h
      rcases cansi_bmsGo_some_cases target prev l m best i seg h with heq | ⟨hmem, hs, hc⟩
      · exact Or.inl heq
      · exact Or.inr ⟨List.mem_cons_of_mem _ hmem, hs, hc⟩

/-- When the running floor equals the count of the current best (when
one exists), the returned segment dominates the floor and every
matching entry of the list. -/
theorem cansi_bmsGo_max (target : Int) (prev : Bool) :
    ∀ (l : List (Nat × CAnsi.Segment)) (m : Int) (best : Option (Nat × CAnsi.Segment)),
      (∀ q, best = some q → CAnsi.rawSynCount prev q.2 = m) →
      ∀ i seg, CAnsi.getBestMatchingSegmentGo target prev l m best = some (i, seg) →
        m ≤ CAnsi.rawSynCount prev seg ∧
        ∀ q ∈ l, q.2.predictionSteps = target →
          CAnsi.rawSynCount prev q.2 ≤ CAnsi.rawSynCount prev seg
  | [], m, best, hbest, i, seg => by
    intro h
    refine ⟨le_of_eq (hbest (i, seg) h).symm, ?_⟩
    intro q hq
    cases hq
  | (j, g) :: l, m, best, hbest, i, seg => by
    simp only [CAnsi.getBestMatchingSegmentGo]
    split
    · rename_i hsteps
      split
      · rename_i hcount
        intro h
        have hnew : ∀ q : Nat × CAnsi.Segment, some (j, g) = some q →
            CAnsi.rawSynCount prev q.2 = CAnsi.rawSynCount prev g := by
          intro q hqe
          rw [(Option.some.inj hqe).symm]
        have ih := cansi_bmsGo_max target prev l _ (some (j, g)) hnew i seg h
        constructor
        · omega
        · intro q hq hqsteps
          rcases List.mem_cons.mp hq with rfl | hq
          · exact ih.1
          · exact ih.2 q hq hqsteps

      · rename_i hcount
        intro h
        have ih := cansi_bmsGo_max target prev l m best hbest i seg h
        refine ⟨ih.1, ?_⟩
        intro q hq hqsteps
        rcases List.mem_cons.mp hq with rfl | hq
        · have h1 := ih.1
          show CAnsi.rawSynCount prev g ≤ CAnsi.rawSynCount prev seg
          omega
        · exact ih.2 q hq hqsteps
    · rename_i hsteps
      intro h
      have ih := cansi_bmsGo_max target prev l m best hbest i seg h
      refine ⟨ih.1, ?_⟩
      intro q hq hqsteps
      rcases List.mem_cons.mp hq with rfl | hq
      · exact absurd hqsteps hsteps
      · exact ih.2 q hq hqsteps

/-- Once the cpp getBestMatchingSegmentGo holds a best segment it never
returns none. -/
theorem cpp_bmsGo_isSome (r : Cpp.Region) (isSeq prev : Bool) :
    ∀ (l : List Cpp.Segment) (m : Int) (p : Cpp.Segment),
      (Cpp.getBestMatchingSegmentGo r isSeq prev l m (some p)).isSome = true
  | [], _, _ => rfl
  | g :: l, m, p => by
    simp only [Cpp.getBestMatchingSegmentGo]
    split
    · split
      · exact cpp_bmsGo_isSome r isSeq prev l _ _
      · exact cpp_bmsGo_isSome r isSeq prev l m p
    · exact cpp_bmsGo_isSome r isSeq prev l m p

/-- Starting from no best, the cpp getBestMatchingSegmentGo returns
none exactly when no selector-matching segment strictly beats the
running floor. -/
theorem cpp_bmsGo_none_iff (r : Cpp.Region) (isSeq prev : Bool) :
    ∀ (l : List Cpp.Segment) (m : Int),
      Cpp.getBestMatchingSegmentGo r isSeq prev l m none = none ↔
        ∀ g ∈ l, g.isSequence = isSeq → Cpp.rawSynCount r prev g ≤ m
  | [], m => by simp [Cpp.getBestMatchingSegmentGo]
  | g :: l, m => by
    simp only [Cpp.getBestMatchingSegmentGo]
    split
    · rename_i hsel
      split
      · rename_i hcount
        constructor
        · intro hnone
          have hsome := cpp_bmsGo_isSome r isSeq prev l (Cpp.rawSynCount r prev g) g
          rw [hnone] at hsome
          cases hsome
        · intro hall
          have hg : Cpp.rawSynCount r prev g ≤ m := hall g (List.mem_cons_self _ _) hsel
          omega
      · rename_i hcount
        rw [cpp_bmsGo_none_iff r isSeq prev l m]
        constructor
        · intro hall p hp hpsel
          rcases List.mem_cons.mp hp with rfl | hp
          · omega
          · exact hall p hp hpsel
        · intro hall p hp hpsel
          exact hall p (List.mem_cons_of_mem _ hp) hpsel
    · rename_i hsel
      rw [cpp_bmsGo_none_iff r isSeq prev l m]
      constructor
      · intro hall p hp hpsel
        rcases List.mem_cons.mp hp with rfl | hp
        · exact absurd hpsel hsel
        · exact hall p hp hpsel
      · intro hall p hp hpsel
        exact hall p (List.mem_cons_of_mem _ hp) hpsel

/-- A segment returned by the cpp getBestMatchingSegmentGo is the
incoming best or a selector-matching list entry strictly beating the
incoming floor. -/
theorem cpp_bmsGo_some_cases (r : Cpp.Region) (isSeq prev : Bool) :
    ∀ (l : List Cpp.Segment) (m : Int) (best : Option Cpp.Segment) (seg : Cpp.Segment),
      Cpp.getBestMatchingSegmentGo r isSeq prev l m best = some seg →
      best = some seg ∨
        (seg ∈ l ∧ seg.isSequence = isSeq ∧ m < Cpp.rawSynCount r prev seg)
  | [], m, best, seg => fun h => Or.inl h
  | g :: l, m, best, seg => by
    simp only [Cpp.getBestMatchingSegmentGo]
    split
    · rename_i hsel
      split
      · rename_i hcount
        intro h
        rcases cpp_bmsGo_some_cases r isSeq prev l _ _ seg h with heq | ⟨hmem, hs, hc⟩
        · have heq2 := Option.some.inj heq
          subst heq2
          exact Or.inr ⟨List.mem_cons_self _ _, hsel, hcount⟩
        · refine Or.inr ⟨List.mem_cons_of_mem _ hmem, hs, ?_⟩
          omega
      · intro h
        rcases cpp_bmsGo_some_cases r isSeq prev l m best seg h with heq | ⟨hmem, hs, hc⟩
        · exact Or.inl heq
        · exact Or.inr ⟨List.mem_cons_of_mem _ hmem, hs, hc⟩
    · intro h
      rcases cpp_bmsGo_some_cases r isSeq prev l m best seg h with heq | ⟨hmem, hs, hc⟩
      · exact Or.inl heq
      · exact Or.inr ⟨List.mem_cons_of_mem _ hmem, hs, hc⟩

/-- When the running floor equals the count of the current best (when
one exists), the segment returned by the cpp getBestMatchingSegmentGo
dominates the floor and every selector-matching entry of the list. -/
theorem cpp_bmsGo_max (r : Cpp.Region) (isSeq prev : Bool) :
    ∀ (l : List Cpp.Segment) (m : Int) (best : Option Cpp.Segment),
      (∀ q, best = some q → Cpp.rawSynCount r prev q = m) →
      ∀ seg, Cpp.getBestMatchingSegmentGo r isSeq prev l m best = some seg →
        m ≤ Cpp.rawSynCount r prev seg ∧
        ∀ q ∈ l, q.isSequence = isSeq →
          Cpp.rawSynCount r prev q ≤ Cpp.rawSynCount r prev seg
  | [], m, best, hbest, seg => by
    intro h
    refine ⟨le_of_eq (hbest seg h).symm, ?_⟩
    intro q hq
    cases hq
  | g :: l, m, best, hbest, seg => by
    simp only [Cpp.getBestMatchingSegmentGo]
    split
    · rename_i hsel
      split
      · rename_i hcount
        intro h
        have hnew : ∀ q : Cpp.Segment, some g = some q →
            Cpp.rawSynCount r prev q = Cpp.rawSynCount r prev g := by
          intro q hqe
          rw [(Option.some.inj hqe).symm]
        have ih := cpp_bmsGo_max r isSeq prev l _ (some g) hnew seg h
        constructor
        · omega
        · intro q hq hqsel
          rcases List.mem_cons.mp hq with rfl | hq
          · exact ih.1
          · exact ih.2 q hq hqsel
      · rename_i hcount
        intro h
        have ih := cpp_bmsGo_max r isSeq prev l m best hbest seg h
        refine ⟨ih.1, ?_⟩
        intro q hq hqsel
        rcases List.mem_cons.mp hq with rfl | hq
        · have h1 := ih.1
          omega
        · exact ih.2 q hq hqsel
    · rename_i hsel
      intro h
      have ih := cpp_bmsGo_max r isSeq prev l m best hbest seg h
      refine ⟨ih.1, ?_⟩
      intro q hq hqsel
      rcases List.mem_cons.mp hq with rfl | hq
      · exact absurd hqsel hsel
      · exact ih.2 q hq hqsel

/-- The second component of an enum entry is a list member. -/
theorem enum_snd_mem {α : Type} {l : List α} {i : Nat} {a : α}
    (h : (i, a) ∈ l.enum) : a ∈ l := by
  rw [List.mk_mem_enum_iff_getElem?] at h
  exact List.getElem?_mem h

/-- Every list member appears in the enum with some index. -/
theorem mem_enum_of_mem {α : Type} {l : List α} {a : α} (h : a ∈ l) :
    ∃ i, (i, a) ∈ l.enum := by
  rw [List.mem_iff_getElem?] at h
  obtain ⟨i, hi⟩ := h
  exact ⟨i, List.mk_mem_enum_iff_getElem?.mpr hi⟩

/-- Claim C7: in both variants, getBestMatchingSegment scans the
segments matching the selector (an explicit predictionSteps target in
the data-oriented variant, the isSequence flag in the object-oriented
variant) and returns one with the highest raw (connectedOnly = false)
active synapse count at the requested time reference, subject to the
floor MIN_SYNAPSES_PER_SEGMENT_THRESHOLD = 1 — the count must strictly
exceed the floor, so a matching segment whose raw count is exactly 1 is
not returnable — and returns null exactly when no matching segment
strictly exceeds the floor. -/
theorem claim7_best_matching_segment :
    (∀ (cell : CAnsi.Cell) (target : Int) (previous : Bool),
      (CAnsi.getBestMatchingSegment cell target previous = none ↔
        ∀ seg ∈ cell.segments, seg.predictionSteps = target →
          CAnsi.rawSynCount previous seg ≤ CAnsi.MIN_SYNAPSES_PER_SEGMENT_THRESHOLD) ∧
      (∀ i seg, CAnsi.getBestMatchingSegment cell target previous = some (i, seg) →
        seg ∈ cell.segments ∧ seg.predictionSteps = target ∧
        CAnsi.MIN_SYNAPSES_PER_SEGMENT_THRESHOLD < CAnsi.rawSynCount previous seg ∧
        ∀ s ∈ cell.segments, s.predictionSteps = target →
          CAnsi.rawSynCount previous s ≤ CAnsi.rawSynCount previous seg)) ∧
    (∀ (r : Cpp.Region) (cell : Cpp.Cell) (isSeq previous : Bool),
      (Cpp.getBestMatchingSegment r cell isSeq previous = none ↔
        ∀ seg ∈ cell.segments, seg.isSequence = isSeq →
          Cpp.rawSynCount r previous seg ≤ Cpp.MIN_SYNAPSES_PER_SEGMENT_THRESHOLD) ∧
      (∀ seg, Cpp.getBestMatchingSegment r cell isSeq previous = some seg →
        seg ∈ cell.segments ∧ seg.isSequence = isSeq ∧
        Cpp.MIN_SYNAPSES_PER_SEGMENT_THRESHOLD < Cpp.rawSynCount r previous seg ∧
        ∀ s ∈ cell.segments, s.isSequence = isSeq →
          Cpp.rawSynCount r previous s ≤ Cpp.rawSynCount r previous seg)) := by
  constructor
  · intro cell target previous
    constructor
    · rw [CAnsi.getBestMatchingSegment,
        cansi_bmsGo_none_iff target previous cell.segments.enum
          CAnsi.MIN_SYNAPSES_PER_SEGMENT_THRESHOLD]
      constructor
      · intro hall s hs hsteps
        obtain ⟨i, hi⟩ := mem_enum_of_mem hs
        exact hall (i, s) hi hsteps
      · intro hall p hp hpsteps
        rcases p with ⟨i, s⟩
        exact hall s (enum_snd_mem hp) hpsteps
    · intro i seg h
      rw [CAnsi.getBestMatchingSegment] at h
      rcases cansi_bmsGo_some_cases target previous cell.segments.enum _ none i seg h with
        heq | ⟨hmem, hsteps, hfloor⟩
      · cases heq
      · have hmax := cansi_bmsGo_max target previous cell.segments.enum
          CAnsi.MIN_SYNAPSES_PER_SEGMENT_THRESHOLD none (fun q hq => by cases hq) i seg h
        refine ⟨enum_snd_mem hmem, hsteps, hfloor, ?_⟩
        intro s hs hssteps
        obtain ⟨j, hj⟩ := mem_enum_of_mem hs
        exact hmax.2 (j, s) hj hssteps
  · intro r cell isSeq previous
    constructor
    · rw [Cpp.getBestMatchingSegment,
        cpp_bmsGo_none_iff r isSeq previous cell.segments
          Cpp.MIN_SYNAPSES_PER_SEGMENT_THRESHOLD]
    · intro seg h
      rw [Cpp.getBestMatchingSegment] at h
      rcases cpp_bmsGo_some_cases r isSeq previous cell.segments _ none seg h with
        heq | ⟨hmem, hsel, hfloor⟩
      · cases heq
      · have hmax := cpp_bmsGo_max r isSeq previous cell.segments
          Cpp.MIN_SYNAPSES_PER_SEGMENT_THRESHOLD none (fun q hq => by cases hq) seg h
        exact ⟨hmem, hsel, hfloor, hmax.2⟩

/-- Witness for claim C7: at the concrete cell c7Cell the returned
segment is the one with raw previous count 3, beating the floor and the
count-1 segment. -/
theorem claim7_best_matching_segment_witness :
    c7SegBest ∈ c7Cell.segments ∧ c7SegBest.predictionSteps = 1 ∧
    CAnsi.MIN_SYNAPSES_PER_SEGMENT_THRESHOLD < CAnsi.rawSynCount true c7SegBest ∧
    ∀ s ∈ c7Cell.segments, s.predictionSteps = 1 →
      CAnsi.rawSynCount true s ≤ CAnsi.rawSynCount true c7SegBest :=
  (claim7_best_matching_segment.1 c7Cell 1 true).2 1 c7SegBest (by decide)

/-- The scan of Cell::getPreviousActiveSegment (cpp) returns the
starting segment or a list member, with at least the starting count and
dominating every list member. -/
theorem cpp_mostGo_spec (r : Cpp.Region) :
    ∀ (l : List Cpp.Segment) (best : Cpp.Segment) (m : Int),
      m = Cpp.getPrevActiveSynapseCount r best true →
      (Cpp.mostActivityGo r l best m = best ∨ Cpp.mostActivityGo r l best m ∈ l) ∧
      m ≤ Cpp.getPrevActiveSynapseCount r (Cpp.mostActivityGo r l best m) true ∧
      ∀ s ∈ l, Cpp.getPrevActiveSynapseCount r s true ≤
        Cpp.getPrevActiveSynapseCount r (Cpp.mostActivityGo r l best m) true
  | [], best, m, hm => by
    refine ⟨Or.inl rfl, le_of_eq hm, ?_⟩
    intro s hs
    cases hs
  | g :: l, best, m, hm => by
    simp only [Cpp.mostActivityGo]
    split
    · rename_i hcount
      have ih := cpp_mostGo_spec r l g (Cpp.getPrevActiveSynapseCount r g true) rfl
      refine ⟨?_, ?_, ?_⟩
      · rcases ih.1 with heq | hmem
        · exact Or.inr (by rw [heq]; exact List.mem_cons_self _ _)
        · exact Or.inr (List.mem_cons_of_mem _ hmem)
      · have h1 := ih.2.1
        omega
      · intro s hs
        rcases List.mem_cons.mp hs with rfl | hs
        · exact ih.2.1
        · exact ih.2.2 s hs
    · rename_i hcount
      have ih := cpp_mostGo_spec r l best m hm
      refine ⟨?_, ih.2.1, ?_⟩
      · rcases ih.1 with heq | hmem
        · exact Or.inl heq
        · exact Or.inr (List.mem_cons_of_mem _ hmem)
      · intro s hs
        rcases List.mem_cons.mp hs with rfl | hs
        · have h1 := ih.2.1
          omega
        · exact ih.2.2 s hs

/-- Once the c_ansi getPreviousActiveSegment scan holds a best segment
it never returns none. -/
theorem cansi_pasGo_isSome :
    ∀ (l : List CAnsi.Segment) (fs : Bool) (m : Int) (p : CAnsi.Segment),
      (CAnsi.getPreviousActiveSegmentGo l fs m (some p)).isSome = true
  | [], _, _, _ => rfl
  | g :: l, fs, m, p => by
    simp only [CAnsi.getPreviousActiveSegmentGo]
    split
    · split
      · split
        · exact cansi_pasGo_isSome l true _ _
        · exact cansi_pasGo_isSome l true m p
      · split
        · split
          · exact cansi_pasGo_isSome l fs _ _
          · exact cansi_pasGo_isSome l fs m p
        · exact cansi_pasGo_isSome l fs m p
    · exact cansi_pasGo_isSome l fs m p

/-- Any segment returned by the c_ansi getPreviousActiveSegment scan is
the incoming best or a list member whose previous-active connected
count strictly exceeds its own threshold. -/
theorem cansi_pasGo_strict :
    ∀ (l : List CAnsi.Segment) (fs : Bool) (m : Int) (best : Option CAnsi.Segment),
      ∀ seg, CAnsi.getPreviousActiveSegmentGo l fs m best = some seg →
        best = some seg ∨
          (seg ∈ l ∧ seg.segActiveThreshold < seg.numPrevActiveConnectedSyns)
  | [], fs, m, best, seg => fun h => Or.inl h
  | g :: l, fs, m, best, seg => by
    simp only [CAnsi.getPreviousActiveSegmentGo]
    have lift : ∀ fs2 m2 best2,
        CAnsi.getPreviousActiveSegmentGo l fs2 m2 best2 = some seg →
        best2 = some seg →
        best = best2 →
        best = some seg ∨
          (seg ∈ g :: l ∧ seg.segActiveThreshold < seg.numPrevActiveConnectedSyns) :=
      fun _ _ _ _ h2 h3 => Or.inl (h3.trans h2)
    split
    · rename_i hstrict
      split
      · split
        · rename_i hmost
          intro h
          rcases cansi_pasGo_strict l true _ (some g) seg h with heq | ⟨hmem, hs⟩
          · have heq2 := Option.some.inj heq
            subst heq2
            exact Or.inr ⟨List.mem_cons_self _ _, hstrict⟩
          · exact Or.inr ⟨List.mem_cons_of_mem _ hmem, hs⟩
        · intro h
          rcases cansi_pasGo_strict l true m best seg h with heq | ⟨hmem, hs⟩
          · exact Or.inl heq
          · exact Or.inr ⟨List.mem_cons_of_mem _ hmem, hs⟩
      · split
        · split
          · intro h
            rcases cansi_pasGo_strict l fs _ (some g) seg h with heq | ⟨hmem, hs⟩
            · have heq2 := Option.some.inj heq
              subst heq2
              exact Or.inr ⟨List.mem_cons_self _ _, hstrict⟩
            · exact Or.inr ⟨List.mem_cons_of_mem _ hmem, hs⟩
          · intro h
            rcases cansi_pasGo_strict l fs m best seg h with heq | ⟨hmem, hs⟩
            · exact Or.inl heq
            · exact Or.inr ⟨List.mem_cons_of_mem _ hmem, hs⟩
        · intro h
          rcases cansi_pasGo_strict l fs m best seg h with heq | ⟨hmem, hs⟩
          · exact Or.inl heq
          · exact Or.inr ⟨List.mem_cons_of_mem _ hmem, hs⟩
    · intro h
      rcases cansi_pasGo_strict l fs m best seg h with heq | ⟨hmem, hs⟩
      · exact Or.inl heq
      · exact Or.inr ⟨List.mem_cons_of_mem _ hmem, hs⟩

/-- With all thresholds non-negative, the c_ansi getPreviousActiveSegment
scan started fresh returns none exactly when no segment strictly
exceeds its threshold. -/
theorem cansi_pasGo_none_iff :
    ∀ (l : List CAnsi.Segment), (∀ seg ∈ l, 0 ≤ seg.segActiveThreshold) →
      (CAnsi.getPreviousActiveSegmentGo l false 0 none = none ↔
        ∀ seg ∈ l, seg.numPrevActiveConnectedSyns ≤ seg.segActiveThreshold)
  | [], _ => by simp [CAnsi.getPreviousActiveSegmentGo]
  | g :: l, hth => by
    have hg : (0 : Int) ≤ g.segActiveThreshold := hth g (List.mem_cons_self _ _)
    simp only [CAnsi.getPreviousActiveSegmentGo]
    split
    · rename_i hstrict
      have hpos : (0 : Int) < g.numPrevActiveConnectedSyns := by omega
      constructor
      · intro hnone
        exfalso
        split at hnone <;>
          first
            | omega
            | (have hsome := cansi_pasGo_isSome l true g.numPrevActiveConnectedSyns g
               rw [hnone] at hsome
               cases hsome)
            | (rw [if_pos Bool.not_false] at hnone
               have hsome := cansi_pasGo_isSome l false g.numPrevActiveConnectedSyns g
               rw [hnone] at hsome
               cases hsome)
      · intro hall
        have := hall g (List.mem_cons_self _ _)
        omega
    · rename_i hstrict
      rw [cansi_pasGo_none_iff l (fun s hs => hth s (List.mem_cons_of_mem _ hs))]
      constructor
      · intro hall s hs
        rcases List.mem_cons.mp hs with rfl | hs
        · omega
        · exact hall s hs
      · intro hall s hs
        exact hall s (List.mem_cons_of_mem _ hs)

/-- Cell::getPreviousActiveSegment (cpp) returns none exactly when no
segment was previously active. -/
theorem cpp_pas_none_iff (r : Cpp.Region) (cell : Cpp.Cell) :
    Cpp.getPreviousActiveSegment r cell = none ↔
      ∀ seg ∈ cell.segments, Cpp.wasSegmentActive r seg = false := by
  have hfilter : (∀ seg ∈ cell.segments, Cpp.wasSegmentActive r seg = false) ↔
      cell.segments.filter (Cpp.wasSegmentActive r) = [] := by
    rw [List.filter_eq_nil_iff]
    simp
  rw [hfilter]
  unfold Cpp.getPreviousActiveSegment
  dsimp only
  rcases hA : List.filter (Cpp.wasSegmentActive r) cell.segments with _ | ⟨a, A1⟩
  · simp
  · rcases A1 with _ | ⟨b, A2⟩
    · simp
    · simp only [List.length_cons]
      constructor
      · intro h
        exfalso
        split at h
        · omega
        · split at h
          · split at h
            · rename_i hs1
              obtain ⟨s, hs⟩ := List.length_eq_one.mp hs1
              rw [hs] at h
              cases h
            · rcases hpool : (if (List.filter (fun seg => seg.isSequence)
                    (a :: b :: A2)).length > 1
                  then List.filter (fun seg => seg.isSequence) (a :: b :: A2)
                  else a :: b :: A2) with _ | ⟨first, rest⟩
              · split at hpool
                · rename_i hgt1
                  rw [hpool] at hgt1
                  simp at hgt1
                · cases hpool
              · rw [hpool] at h
                cases h
          · omega
      · intro h
        cases h


/-- A segment returned by Cell::getPreviousActiveSegment (cpp) is
eligible (a previously active sequence segment if any exists, else any
previously active segment) and has the most previously active synapses
among the eligible segments. -/
theorem cpp_pas_some_spec (r : Cpp.Region) (cell : Cpp.Cell) (seg : Cpp.Segment)
    (h : Cpp.getPreviousActiveSegment r cell = some seg) :
    seg ∈ Cpp.eligibleSegs r cell ∧
    ∀ s ∈ Cpp.eligibleSegs r cell,
      Cpp.getPrevActiveSynapseCount r s true ≤ Cpp.getPrevActiveSynapseCount r seg true := by
  unfold Cpp.getPreviousActiveSegment at h
  dsimp only at h
  unfold Cpp.eligibleSegs Cpp.hasPrevActiveSequence Cpp.prevActiveSegs
  rcases hA : List.filter (Cpp.wasSegmentActive r) cell.segments with _ | ⟨a, A1⟩
  · rw [hA] at h
    simp at h
  · rw [hA] at h
    rcases A1 with _ | ⟨b, A2⟩
    · have haseg : a = seg := by simpa using h
      subst haseg
      cases ha : a.isSequence
      · simp [ha]
      · simp [ha]
    · simp only [List.length_cons] at h
      rw [if_neg (by omega), if_pos (by omega)] at h
      split at h
      · rename_i hs1
        obtain ⟨s0, hs⟩ := List.length_eq_one.mp hs1
        rw [hs] at h
        simp only [List.head?_cons, Option.some.injEq] at h
        subst h
        have hmem : s0 ∈ List.filter (fun s => s.isSequence) (a :: b :: A2) := by
          rw [hs]
          exact List.mem_cons_self _ _
        have hseq := List.mem_filter.mp hmem
        have hany : (a :: b :: A2).any (fun s => s.isSequence) = true :=
          List.any_eq_true.mpr ⟨s0, hseq.1, hseq.2⟩
        rw [if_pos hany, hs]
        constructor
        · exact List.mem_cons_self _ _
        · intro s hsm
          rcases List.mem_cons.mp hsm with rfl | hsm
          · exact le_refl _
          · cases hsm
      · rename_i hs1
        split at h
        · rename_i heq
          simp at h
        · rename_i first rest heq
          split at heq
          · rename_i hsgt
            simp only [Option.some.injEq] at h
            subst h
            have hspec := cpp_mostGo_spec r rest first
              (Cpp.getPrevActiveSynapseCount r first true) rfl
            have hfmem : first ∈ List.filter (fun s => s.isSequence) (a :: b :: A2) := by
              rw [heq]
              exact List.mem_cons_self _ _
            have hfilt := List.mem_filter.mp hfmem
            have hany : (a :: b :: A2).any (fun s => s.isSequence) = true :=
              List.any_eq_true.mpr ⟨first, hfilt.1, hfilt.2⟩
            rw [if_pos hany, heq]
            constructor
            · rcases hspec.1 with h1 | h1
              · rw [h1]
                exact List.mem_cons_self _ _
              · exact List.mem_cons_of_mem _ h1
            · intro s hsm
              rcases List.mem_cons.mp hsm with rfl | hsm
              · exact hspec.2.1
              · exact hspec.2.2 s hsm
          · rename_i hsgt
            have hlen0 : (List.filter (fun s => s.isSequence) (a :: b :: A2)).length = 0 := by
              omega
            have hS : List.filter (fun s => s.isSequence) (a :: b :: A2) = [] :=
              List.length_eq_zero.mp hlen0
            injection heq with h1 h2
            rw [← h1, ← h2] at h
            simp only [Option.some.injEq] at h
            subst h
            have hany : (a :: b :: A2).any (fun s => s.isSequence) = false := by
              cases hany2 : (a :: b :: A2).any (fun s => s.isSequence)
              · rfl
              · exfalso
                obtain ⟨x, hx, hxseq⟩ := List.any_eq_true.mp hany2
                have hxf : x ∈ List.filter (fun s => s.isSequence) (a :: b :: A2) :=
                  List.mem_filter.mpr ⟨hx, hxseq⟩
                rw [hS] at hxf
                cases hxf
            rw [if_neg (by rw [hany]; exact Bool.false_ne_true)]
            have hspec := cpp_mostGo_spec r (b :: A2) a
              (Cpp.getPrevActiveSynapseCount r a true) rfl
            constructor
            · rcases hspec.1 with h1 | h1
              · rw [h1]
                exact List.mem_cons_self _ _
              · exact List.mem_cons_of_mem _ h1
            · intro s hsm
              rcases List.mem_cons.mp hsm with rfl | hsm
              · exact hspec.2.1
              · exact hspec.2.2 s hsm

/-- Every eligible segment was previously active, and is a sequence
segment whenever any previously active sequence segment exists. -/
theorem cpp_eligible_mem (r : Cpp.Region) (cell : Cpp.Cell) (seg : Cpp.Segment)
    (h : seg ∈ Cpp.eligibleSegs r cell) :
    Cpp.wasSegmentActive r seg = true ∧
    (Cpp.hasPrevActiveSequence r cell = true → seg.isSequence = true) := by
  unfold Cpp.eligibleSegs Cpp.prevActiveSegs at h
  split at h
  · rename_i hseq
    have hm := List.mem_filter.mp h
    have hm2 := List.mem_filter.mp hm.1
    exact ⟨hm2.2, fun _ => hm.2⟩
  · rename_i hseq
    have hm2 := List.mem_filter.mp h
    exact ⟨hm2.2, fun hc => absurd hc hseq⟩

/-- C6: in the cpp variant getPreviousActiveSegment returns none exactly
when no segment was active at t-1, and any returned segment is eligible
(a sequence segment whenever a previously active sequence segment
exists) with the highest previous-active-synapse count among the
eligible segments. In the c_ansi variant (thresholds nonnegative, as
always in the code) it returns none iff no segment's previous active
connected count STRICTLY exceeds its own threshold — not "was active at
t-1", which the wasSegmentActive predicate elsewhere defines with ≥ —
and any returned segment strictly exceeds its threshold. -/
theorem claim6_previous_active_segment :
    (∀ (r : Cpp.Region) (cell : Cpp.Cell),
      (Cpp.getPreviousActiveSegment r cell = none ↔
        ∀ seg ∈ cell.segments, Cpp.wasSegmentActive r seg = false) ∧
      (∀ seg, Cpp.getPreviousActiveSegment r cell = some seg →
        seg ∈ Cpp.eligibleSegs r cell ∧
        Cpp.wasSegmentActive r seg = true ∧
        (Cpp.hasPrevActiveSequence r cell = true → seg.isSequence = true) ∧
        ∀ s ∈ Cpp.eligibleSegs r cell,
          Cpp.getPrevActiveSynapseCount r s true ≤
            Cpp.getPrevActiveSynapseCount r seg true)) ∧
    (∀ cell : CAnsi.Cell, (∀ seg ∈ cell.segments, 0 ≤ seg.segActiveThreshold) →
      ((CAnsi.getPreviousActiveSegment cell = none ↔
        ∀ seg ∈ cell.segments,
          seg.numPrevActiveConnectedSyns ≤ seg.segActiveThreshold) ∧
      ∀ seg, CAnsi.getPreviousActiveSegment cell = some seg →
        seg ∈ cell.segments ∧
          seg.segActiveThreshold < seg.numPrevActiveConnectedSyns)) := by
  refine ⟨fun r cell => ⟨cpp_pas_none_iff r cell, fun seg hseg => ?_⟩,
    fun cell hth => ⟨cansi_pasGo_none_iff cell.segments hth, ?_⟩⟩
  · obtain ⟨hmem, hmax⟩ := cpp_pas_some_spec r cell seg hseg
    obtain ⟨hwa, hseq⟩ := cpp_eligible_mem r cell seg hmem
    exact ⟨hmem, hwa, hseq, hmax⟩
  · intro seg hseg
    rcases cansi_pasGo_strict cell.segments false 0 none seg hseg with heq | h
    · cases heq
    · exact h

/-- Witness for C6 at the concrete cell c6Cell, whose single segment has
threshold 1 ≥ 0. -/
theorem claim6_previous_active_segment_witness :
    (∀ seg ∈ c6Cell.segments, 0 ≤ seg.segActiveThreshold) ∧
    (CAnsi.getPreviousActiveSegment c6Cell = none ↔
      ∀ seg ∈ c6Cell.segments,
        seg.numPrevActiveConnectedSyns ≤ seg.segActiveThreshold) :=
  ⟨by decide, (claim6_previous_active_segment.2 c6Cell (by decide)).1⟩

/-- Mapping a projection over a mapped list is unchanged when the
projection does not see the mapped function. -/
theorem map_struct_congr {α β : Type} (f : α → α) (pr : α → β)
    (hf : ∀ a, pr (f a) = pr a) :
    ∀ l : List α, (l.map f).map pr = l.map pr
  | [] => rfl
  | a :: l => by
    simp only [List.map_cons, hf a, map_struct_congr f pr hf l]

/-- Mapping a projection over an enumerated-and-mapped list is unchanged
when the projection does not see the mapped function. -/
theorem map_enumFrom_struct {α β : Type} (f : Nat × α → α) (pr : α → β)
    (hf : ∀ p, pr (f p) = pr p.2) :
    ∀ (n : Nat) (l : List α), ((List.enumFrom n l).map f).map pr = l.map pr
  | _, [] => rfl
  | n, a :: l => by
    simp only [List.enumFrom, List.map_cons, hf (n, a),
      map_enumFrom_struct f pr hf (n + 1) l]

/-- modifyCell does not change the temporalLearning flag. -/
theorem cansi_tl_modifyCell (r : CAnsi.Region) (id : CAnsi.CellId)
    (f : CAnsi.Cell → CAnsi.Cell) :
    (CAnsi.modifyCell r id f).temporalLearning = r.temporalLearning := rfl

/-- modifyCell preserves the learned structure whenever the cell update
does. -/
theorem cansi_structOf_modifyCell (r : CAnsi.Region) (id : CAnsi.CellId)
    (f : CAnsi.Cell → CAnsi.Cell)
    (hf : ∀ c, CAnsi.cellStruct (f c) = CAnsi.cellStruct c) :
    CAnsi.structOf (CAnsi.modifyCell r id f) = CAnsi.structOf r := by
  unfold CAnsi.structOf CAnsi.modifyCell CAnsi.modifyCol
  dsimp only
  exact map_set_struct CAnsi.colStruct
    (fun col =>
      { col with
        cells := col.cells.set id.2 (f (col.cells.getD id.2 CAnsi.defaultCell)) })
    (fun col => by
      unfold CAnsi.colStruct
      dsimp only
      rw [map_set_struct CAnsi.cellStruct f hf col.cells id.2 CAnsi.defaultCell])
    r.columns id.1 CAnsi.defaultColumn

/-- processSegment changes only the cached counts, flags and connection
bits, not the learned structure of the segment. -/
theorem cansi_segStruct_processSegment (r : CAnsi.Region) (g : CAnsi.Segment) :
    CAnsi.segStruct (CAnsi.processSegment r g) = CAnsi.segStruct g := by
  unfold CAnsi.processSegment CAnsi.segStruct
  dsimp only
  rw [map_struct_congr
    (fun s : CAnsi.Synapse =>
      { s with isConnected := decide (s.permanence ≥ CAnsi.CONNECTED_PERM) })
    CAnsi.synStruct (fun s => rfl) g.synapses]

/-- nextSegmentTimeStep changes only caches, not learned structure. -/
theorem cansi_segStruct_next (g : CAnsi.Segment) :
    CAnsi.segStruct (CAnsi.nextSegmentTimeStep g) = CAnsi.segStruct g := by
  unfold CAnsi.nextSegmentTimeStep CAnsi.segStruct
  dsimp only
  rw [map_struct_congr
    (fun s : CAnsi.Synapse => { s with wasConnected := s.isConnected, isConnected := false })
    CAnsi.synStruct (fun s => rfl) g.synapses]

/-- nextCellTimeStep changes only flags and caches. -/
theorem cansi_cellStruct_next (c : CAnsi.Cell) :
    CAnsi.cellStruct (CAnsi.nextCellTimeStep c) = CAnsi.cellStruct c := by
  unfold CAnsi.nextCellTimeStep CAnsi.cellStruct
  dsimp only
  rw [map_struct_congr CAnsi.nextSegmentTimeStep CAnsi.segStruct cansi_segStruct_next
    c.segments]

/-- nextColumnTimeStep changes only flags and caches. -/
theorem cansi_colStruct_next (col : CAnsi.Column) :
    CAnsi.colStruct (CAnsi.nextColumnTimeStep col) = CAnsi.colStruct col := by
  unfold CAnsi.nextColumnTimeStep CAnsi.colStruct
  dsimp only
  rw [map_struct_congr CAnsi.nextCellTimeStep CAnsi.cellStruct cansi_cellStruct_next
    col.cells]

/-- The buffer advance of runOnce preserves the learned structure. -/
theorem cansi_structOf_next (r : CAnsi.Region) :
    CAnsi.structOf (CAnsi.nextTimeStep r) = CAnsi.structOf r := by
  unfold CAnsi.nextTimeStep CAnsi.structOf
  refine map_enumFrom_struct _ CAnsi.colStruct ?_ 0 r.columns
  intro p
  dsimp only
  split
  · exact cansi_colStruct_next p.2
  · rfl

/-- Hardcoded spatial pooling changes only column activity. -/
theorem cansi_structOf_spatial (r : CAnsi.Region) (input : List Int) :
    CAnsi.structOf (CAnsi.performSpatialPooling r input) = CAnsi.structOf r := by
  unfold CAnsi.performSpatialPooling
  have hh : CAnsi.HARDCODE_SPATIAL = true := rfl
  rw [if_pos hh]
  unfold CAnsi.structOf
  refine map_enumFrom_struct _ CAnsi.colStruct ?_ 0 r.columns
  intro p
  dsimp only
  split
  · rfl
  · rfl

/-- setCellPredicting changes only the predicting flag and the cached
prediction step count. -/
theorem cansi_cellStruct_setPredicting (c : CAnsi.Cell) (b : Bool) :
    CAnsi.cellStruct (CAnsi.setCellPredicting c b) = CAnsi.cellStruct c := by
  unfold CAnsi.setCellPredicting
  dsimp only
  split
  · rfl
  · rfl

/-- Refreshing every segment cache of a cell preserves its learned
structure. -/
theorem cansi_cellStruct_process (r : CAnsi.Region) (c : CAnsi.Cell) :
    CAnsi.cellStruct { c with segments := c.segments.map (CAnsi.processSegment r) } =
      CAnsi.cellStruct c := by
  unfold CAnsi.cellStruct
  dsimp only
  rw [map_struct_congr (CAnsi.processSegment r) CAnsi.segStruct
    (fun g => cansi_segStruct_processSegment r g) c.segments]

/-- The column-burst fold of Phase 1 does not change the
temporalLearning flag. -/
theorem cansi_tl_burst (ci : Nat) :
    ∀ (l : List Nat) (s : CAnsi.Region),
      (l.foldl (fun r c => CAnsi.modifyCell r (ci, c)
        fun cell => { cell with isActive := true }) s).temporalLearning =
        s.temporalLearning
  | [], _ => rfl
  | c :: l, s => by
    simp only [List.foldl_cons]
    exact cansi_tl_burst ci l _

/-- Equal learned structure transports emptiness of all update queues. -/
theorem cansi_queues_of_structOf {s r : CAnsi.Region}
    (h : CAnsi.structOf s = CAnsi.structOf r) (hq : CAnsi.queuesEmpty r) :
    CAnsi.queuesEmpty s := by
  unfold CAnsi.queuesEmpty at hq ⊢
  unfold CAnsi.structOf at h
  refine forall_mem_of_map_eq ?_ h hq
  intro ca cb hcol hP
  have hcells : ca.cells.map CAnsi.cellStruct = cb.cells.map CAnsi.cellStruct := by
    unfold CAnsi.colStruct at hcol
    exact congrArg Prod.fst hcol
  refine forall_mem_of_map_eq ?_ hcells hP
  intro x y hxy hy
  have hupd : x.segmentUpdates = y.segmentUpdates := congrArg Prod.snd hxy
  rw [hupd]
  exact hy

/-- One step of the Phase 1 cell scan preserves learned structure and
the disabled temporalLearning flag (its learning branch is guarded by
the flag). -/
theorem cansi_phase1_scan_frame (r0 : CAnsi.Region) (ci : Nat)
    (acc : CAnsi.Region × Bool × Bool) (c : Nat)
    (hinv : CAnsi.structOf acc.1 = CAnsi.structOf r0 ∧
      acc.1.temporalLearning = false) :
    CAnsi.structOf (CAnsi.phase1ScanStep ci acc c).1 = CAnsi.structOf r0 ∧
    (CAnsi.phase1ScanStep ci acc c).1.temporalLearning = false := by
  unfold CAnsi.phase1ScanStep
  dsimp only
  split
  · split
    · split
      · split
        · rename_i hcond
          exfalso
          simp only [Bool.and_eq_true] at hcond
          have htl : acc.1.temporalLearning = true := hcond.1
          rw [hinv.2] at htl
          exact Bool.noConfusion htl
        · exact ⟨(cansi_structOf_modifyCell acc.1 (ci, c)
              (fun cell => { cell with isActive := true }) fun _ => rfl).trans hinv.1,
            hinv.2⟩
      · exact hinv
    · exact hinv
  · exact hinv

/-- Phase 1 with temporal learning disabled changes only activity
state: the learned structure, the flag and the random stream are
untouched. -/
theorem cansi_phase1_frame (r : CAnsi.Region) (ci : Nat) (rng : List Nat)
    (ht : r.temporalLearning = false) :
    CAnsi.structOf (CAnsi.phase1Column r ci rng).1 = CAnsi.structOf r ∧
    (CAnsi.phase1Column r ci rng).1.temporalLearning = false ∧
    (CAnsi.phase1Column r ci rng).2 = rng := by
  unfold CAnsi.phase1Column
  dsimp only
  split
  · split
    · -- column bursts: the scan result is extended by the burst fold
      split
      · rename_i hcond
        exfalso
        simp only [Bool.and_eq_true] at hcond
        have htl := hcond.1
        rw [cansi_tl_burst ci] at htl
        rw [(foldl_preserves _
            (fun st : CAnsi.Region × Bool × Bool =>
              CAnsi.structOf st.1 = CAnsi.structOf r ∧ st.1.temporalLearning = false)
            (cansi_phase1_scan_frame r ci)
            (List.range (CAnsi.getCol r ci).cells.length) (r, false, false)
            ⟨rfl, ht⟩).2] at htl
        exact Bool.noConfusion htl
      · refine ⟨?_, ?_, rfl⟩
        · exact (foldl_preserves _
            (fun rr : CAnsi.Region =>
              CAnsi.structOf rr = CAnsi.structOf r ∧ rr.temporalLearning = false)
            (fun rr c hrr =>
              ⟨(cansi_structOf_modifyCell rr (ci, c)
                  (fun cell => { cell with isActive := true }) fun _ => rfl).trans hrr.1,
                hrr.2⟩) _ _
            ⟨(foldl_preserves _
                (fun st : CAnsi.Region × Bool × Bool =>
                  CAnsi.structOf st.1 = CAnsi.structOf r ∧ st.1.temporalLearning = false)
                (cansi_phase1_scan_frame r ci)
                (List.range (CAnsi.getCol r ci).cells.length) (r, false, false)
                ⟨rfl, ht⟩).1,
              (foldl_preserves _
                (fun st : CAnsi.Region × Bool × Bool =>
                  CAnsi.structOf st.1 = CAnsi.structOf r ∧ st.1.temporalLearning = false)
                (cansi_phase1_scan_frame r ci)
                (List.range (CAnsi.getCol r ci).cells.length) (r, false, false)
                ⟨rfl, ht⟩).2⟩).1
        · rw [cansi_tl_burst ci]
          exact (foldl_preserves _
            (fun st : CAnsi.Region × Bool × Bool =>
              CAnsi.structOf st.1 = CAnsi.structOf r ∧ st.1.temporalLearning = false)
            (cansi_phase1_scan_frame r ci)
            (List.range (CAnsi.getCol r ci).cells.length) (r, false, false)
            ⟨rfl, ht⟩).2
    · -- no burst: the result region is the scan result
      split
      · rename_i hcond
        exfalso
        simp only [Bool.and_eq_true] at hcond
        have htl := hcond.1
        rw [(foldl_preserves _
            (fun st : CAnsi.Region × Bool × Bool =>
              CAnsi.structOf st.1 = CAnsi.structOf r ∧ st.1.temporalLearning = false)
            (cansi_phase1_scan_frame r ci)
            (List.range (CAnsi.getCol r ci).cells.length) (r, false, false)
            ⟨rfl, ht⟩).2] at htl
        exact Bool.noConfusion htl
      · exact ⟨(foldl_preserves _
            (fun st : CAnsi.Region × Bool × Bool =>
              CAnsi.structOf st.1 = CAnsi.structOf r ∧ st.1.temporalLearning = false)
            (cansi_phase1_scan_frame r ci)
            (List.range (CAnsi.getCol r ci).cells.length) (r, false, false)
            ⟨rfl, ht⟩).1,
          (foldl_preserves _
            (fun st : CAnsi.Region × Bool × Bool =>
              CAnsi.structOf st.1 = CAnsi.structOf r ∧ st.1.temporalLearning = false)
            (cansi_phase1_scan_frame r ci)
            (List.range (CAnsi.getCol r ci).cells.length) (r, false, false)
            ⟨rfl, ht⟩).2, rfl⟩
  · exact ⟨rfl, ht, rfl⟩

/-- Phase 2 with temporal learning disabled changes only activity
state. -/
theorem cansi_phase2_frame (r : CAnsi.Region) (cid : CAnsi.CellId) (rng : List Nat)
    (ht : r.temporalLearning = false) :
    CAnsi.structOf (CAnsi.phase2Cell r cid rng).1 = CAnsi.structOf r ∧
    (CAnsi.phase2Cell r cid rng).1.temporalLearning = false ∧
    (CAnsi.phase2Cell r cid rng).2 = rng := by
  unfold CAnsi.phase2Cell
  dsimp only
  simp only [cansi_tl_modifyCell, ht, Bool.false_and, Bool.false_eq_true, if_false]
  split
  · -- the Phase 2b learning guard cannot fire
    rename_i hcond
    exfalso
    simp only [Bool.and_eq_true] at hcond
    have htl := hcond.1
    split at htl
    · have h2 : r.temporalLearning = true := htl
      rw [ht] at h2
      exact Bool.noConfusion h2
    · have h2 : r.temporalLearning = true := htl
      rw [ht] at h2
      exact Bool.noConfusion h2
  · split
    · -- some segment active: the cell enters the predicting state
      exact ⟨(cansi_structOf_modifyCell _ _ _
          (fun c => cansi_cellStruct_setPredicting c true)).trans
          (cansi_structOf_modifyCell _ _ _ (fun c => cansi_cellStruct_process r c)),
        ht, rfl⟩
    · -- no active segment
      exact ⟨cansi_structOf_modifyCell _ _ _ (fun c => cansi_cellStruct_process r c),
        ht, rfl⟩

/-- performTemporalPooling with temporal learning disabled changes only
activity state and consumes no random numbers. -/
theorem cansi_tp_frame (r : CAnsi.Region) (rng : List Nat)
    (ht : r.temporalLearning = false) :
    CAnsi.structOf (CAnsi.performTemporalPooling r rng).1 = CAnsi.structOf r ∧
    (CAnsi.performTemporalPooling r rng).1.temporalLearning = false ∧
    (CAnsi.performTemporalPooling r rng).2 = rng := by
  unfold CAnsi.performTemporalPooling
  dsimp only
  have hp1 : (fun acc : CAnsi.Region × List Nat =>
      CAnsi.structOf acc.1 = CAnsi.structOf r ∧
      acc.1.temporalLearning = false ∧ acc.2 = rng)
      ((List.range r.numCols.toNat).foldl
        (fun (acc : CAnsi.Region × List Nat) ci => CAnsi.phase1Column acc.1 ci acc.2)
        (r, rng)) :=
    foldl_preserves _
      (fun acc : CAnsi.Region × List Nat =>
        CAnsi.structOf acc.1 = CAnsi.structOf r ∧
        acc.1.temporalLearning = false ∧ acc.2 = rng)
      (fun acc ci hinv =>
        have h := cansi_phase1_frame acc.1 ci acc.2 hinv.2.1
        ⟨h.1.trans hinv.1, h.2.1, h.2.2.trans hinv.2.2⟩)
      (List.range r.numCols.toNat) (r, rng) ⟨rfl, ht, rfl⟩
  have hp2 : (fun acc : CAnsi.Region × List Nat =>
      CAnsi.structOf acc.1 = CAnsi.structOf r ∧
      acc.1.temporalLearning = false ∧ acc.2 = rng)
      ((List.range ((List.range r.numCols.toNat).foldl
          (fun (acc : CAnsi.Region × List Nat) ci => CAnsi.phase1Column acc.1 ci acc.2)
          (r, rng)).1.numCols.toNat).foldl
        (fun (acc : CAnsi.Region × List Nat) ci =>
          (List.range (CAnsi.getCol acc.1 ci).cells.length).foldl
            (fun acc2 c => CAnsi.phase2Cell acc2.1 (ci, c) acc2.2) acc)
        ((List.range r.numCols.toNat).foldl
          (fun (acc : CAnsi.Region × List Nat) ci => CAnsi.phase1Column acc.1 ci acc.2)
          (r, rng))) :=
    foldl_preserves _
      (fun acc : CAnsi.Region × List Nat =>
        CAnsi.structOf acc.1 = CAnsi.structOf r ∧
        acc.1.temporalLearning = false ∧ acc.2 = rng)
      (fun acc ci hinv =>
        foldl_preserves _
          (fun acc : CAnsi.Region × List Nat =>
        CAnsi.structOf acc.1 = CAnsi.structOf r ∧
        acc.1.temporalLearning = false ∧ acc.2 = rng)
          (fun acc2 c hinv2 =>
            have h := cansi_phase2_frame acc2.1 (ci, c) acc2.2 hinv2.2.1
            ⟨h.1.trans hinv2.1, h.2.1, h.2.2.trans hinv2.2.2⟩)
          (List.range (CAnsi.getCol acc.1 ci).cells.length) acc hinv)
      _ _ hp1
  split
  · exact ⟨hp2.1, hp2.2.1, hp2.2.2⟩
  · rename_i hc
    exact absurd ((congrArg (fun b => !b) hp2.2.1).trans Bool.not_false) hc

/-- Cpp modifyCell preserves the learned structure whenever the cell
update keeps the segment list. -/
theorem cpp_structOf_modifyCell (r : Cpp.Region) (id : Cpp.CellId)
    (f : Cpp.Cell → Cpp.Cell) (hf : ∀ c, (f c).segments = c.segments) :
    cppStructOf (Cpp.modifyCell r id f) = cppStructOf r := by
  unfold cppStructOf Cpp.modifyCell Cpp.modifyCol
  dsimp only
  exact map_set_struct
    (fun col : Cpp.Column => (col.cells.map Cpp.Cell.segments, col.proximalSegment))
    (fun col =>
      { col with
        cells := col.cells.set id.2 (f (col.cells.getD id.2 Cpp.defaultCell)) })
    (fun col => by
      dsimp only
      rw [map_set_struct Cpp.Cell.segments f hf col.cells id.2 Cpp.defaultCell])
    r.columns id.1 Cpp.defaultColumn

/-- The cpp buffer advance preserves the learned structure. -/
theorem cpp_structOf_next (r : Cpp.Region) :
    cppStructOf (Cpp.nextTimeStep r) = cppStructOf r := by
  unfold Cpp.nextTimeStep cppStructOf
  refine map_enumFrom_struct _ _ ?_ 0 r.columns
  intro p
  dsimp only
  split
  · dsimp only
    rw [map_struct_congr Cpp.nextCellTimeStep Cpp.Cell.segments (fun c => rfl) p.2.cells]
  · rfl

/-- The cpp hardcoded spatial pooling changes only column activity. -/
theorem cpp_structOf_spatial (r : Cpp.Region) (input : List Int) :
    cppStructOf (Cpp.performSpatialPooling r input) = cppStructOf r := by
  unfold Cpp.performSpatialPooling
  have hh : CAnsi.HARDCODE_SPATIAL = true := rfl
  rw [if_pos hh]
  unfold cppStructOf
  refine map_enumFrom_struct _ _ ?_ 0 r.columns
  intro p
  dsimp only
  split
  · rfl
  · rfl

/-- One step of the cpp Phase 1 cell scan preserves the learned
structure. -/
theorem cpp_phase1_scan_frame (r0 : Cpp.Region) (ci : Nat)
    (acc : Cpp.Region × Bool) (c : Nat)
    (hinv : cppStructOf acc.1 = cppStructOf r0) :
    cppStructOf (Cpp.phase1ScanStep ci acc c).1 = cppStructOf r0 := by
  unfold Cpp.phase1ScanStep
  dsimp only
  split
  · split
    · split
      · exact (cpp_structOf_modifyCell acc.1 (ci, c)
          (fun cell => { cell with isActive := true }) fun _ => rfl).trans hinv
      · exact hinv
    · exact hinv
  · exact hinv

/-- cpp Phase 1 (no learning) changes only activity state. -/
theorem cpp_phase1_frame (r : Cpp.Region) (ci : Nat) :
    cppStructOf (Cpp.phase1Column r ci) = cppStructOf r := by
  unfold Cpp.phase1Column
  dsimp only
  split
  · split
    · exact foldl_preserves _
        (fun rr : Cpp.Region => cppStructOf rr = cppStructOf r)
        (fun rr c hrr => (cpp_structOf_modifyCell rr (ci, c)
          (fun cell => { cell with isActive := true }) fun _ => rfl).trans hrr) _ _
        (foldl_preserves _
          (fun st : Cpp.Region × Bool => cppStructOf st.1 = cppStructOf r)
          (cpp_phase1_scan_frame r ci)
          (List.range (Cpp.getCol r ci).cells.length) (r, false) rfl)
    · exact foldl_preserves _
        (fun st : Cpp.Region × Bool => cppStructOf st.1 = cppStructOf r)
        (cpp_phase1_scan_frame r ci)
        (List.range (Cpp.getCol r ci).cells.length) (r, false) rfl
  · rfl

/-- cpp Phase 2 (no learning) changes only the predicting flag. -/
theorem cpp_phase2_frame (r : Cpp.Region) (cid : Cpp.CellId) :
    cppStructOf (Cpp.phase2Cell r cid) = cppStructOf r := by
  unfold Cpp.phase2Cell
  split
  · exact cpp_structOf_modifyCell r cid
      (fun cell => { cell with isPredicting := true }) fun _ => rfl
  · rfl

/-- The cpp no-learning step preserves every segment and synapse. -/
theorem cpp_run_frame (r : Cpp.Region) (input : List Int) :
    cppStructOf (Cpp.runOnceNoLearning r input) = cppStructOf r := by
  unfold Cpp.runOnceNoLearning
  dsimp only
  exact foldl_preserves _
    (fun rr : Cpp.Region => cppStructOf rr = cppStructOf r)
    (fun rr ci hrr =>
      foldl_preserves _
        (fun r2 : Cpp.Region => cppStructOf r2 = cppStructOf r)
        (fun r2 c hr2 => (cpp_phase2_frame r2 (ci, c)).trans hr2)
        (List.range (Cpp.getCol rr ci).cells.length) rr hrr)
    _ _
    (foldl_preserves _
      (fun rr : Cpp.Region => cppStructOf rr = cppStructOf r)
      (fun rr ci hrr => (cpp_phase1_frame rr ci).trans hrr)
      _ _
      ((cpp_structOf_spatial (Cpp.nextTimeStep r) input).trans (cpp_structOf_next r)))

/-- C10: with spatial and temporal learning disabled, runOnce changes
only activity state.  In the c_ansi variant the learned structure
(every synapse source and permanence, every segment's flags and
thresholds, every pending update queue, every proximal segment) is
unchanged, no random numbers are consumed, and empty update queues stay
empty; in the cpp variant the no-learning step preserves every cell's
segment list and every proximal segment. -/
theorem claim10_no_learning_frame :
    (∀ (r : CAnsi.Region) (input : List Int) (rng : List Nat),
      r.spatialLearning = false → r.temporalLearning = false →
      CAnsi.structOf (CAnsi.runOnce r input rng).1 = CAnsi.structOf r ∧
      (CAnsi.runOnce r input rng).2 = rng ∧
      (CAnsi.queuesEmpty r → CAnsi.queuesEmpty (CAnsi.runOnce r input rng).1)) ∧
    (∀ (r : Cpp.Region) (input : List Int),
      cppStructOf (Cpp.runOnceNoLearning r input) = cppStructOf r) := by
  constructor
  · intro r input rng hs ht
    have ht2 : (CAnsi.performSpatialPooling (CAnsi.nextTimeStep r) input).temporalLearning
        = false := ht
    have h := cansi_tp_frame (CAnsi.performSpatialPooling (CAnsi.nextTimeStep r) input)
      rng ht2
    have hst := (h.1).trans ((cansi_structOf_spatial (CAnsi.nextTimeStep r) input).trans
      (cansi_structOf_next r))
    exact ⟨hst, h.2.2, fun hq => cansi_queues_of_structOf hst hq⟩
  · exact fun r input => cpp_run_frame r input

/-- Witness for C10 at a concrete two-column region with both learning
flags off: one step on input [1,0] keeps the learned structure, the
random stream and the empty queues. -/
theorem claim10_no_learning_frame_witness :
    c10Region.spatialLearning = false ∧ c10Region.temporalLearning = false ∧
    CAnsi.queuesEmpty c10Region ∧
    CAnsi.structOf (CAnsi.runOnce c10Region [1, 0] []).1 = CAnsi.structOf c10Region ∧
    CAnsi.queuesEmpty (CAnsi.runOnce c10Region [1, 0] []).1 :=
  ⟨by decide, by decide, by unfold CAnsi.queuesEmpty; decide,
    (claim10_no_learning_frame.1 c10Region [1, 0] [] (by decide) (by decide)).1,
    (claim10_no_learning_frame.1 c10Region [1, 0] [] (by decide) (by decide)).2.2
      (by unfold CAnsi.queuesEmpty; decide)⟩

/-- Columnwise agreement of the two hardcoded spatial pooling loops:
with in-range indices the stored isActive flags agree and equal the
input bit test. -/
theorem spatial_agree_go (input : List Int) (nA nC : Int) :
    ∀ (n : Nat) (la : List CAnsi.Column) (lc : List Cpp.Column),
      la.length = lc.length →
      ((n : Int) + la.length ≤ nA) →
      ((n : Int) + lc.length ≤ nC) →
      ((List.enumFrom n la).map (fun p =>
        if (p.1 : Int) < nA then { p.2 with isActive := decide (input.getD p.1 0 = 1) }
        else p.2)).map (fun col => col.isActive) =
      ((List.enumFrom n lc).map (fun p =>
        if (p.1 : Int) < nC then { p.2 with isActive := decide (input.getD p.1 0 = 1) }
        else p.2)).map (fun col => col.isActive)
  | n, [], [], _, _, _ => rfl
  | n, [], c :: lc, hlen, _, _ => by simp at hlen
  | n, a :: la, [], hlen, _, _ => by simp at hlen
  | n, a :: la, c :: lc, hlen, hA, hC => by
    simp only [List.length_cons] at hlen hA hC
    have hrec := spatial_agree_go input nA nC (n + 1) la lc (by omega)
      (by push_cast; omega) (by push_cast; omega)
    simp only [List.enumFrom, List.map_cons]
    dsimp only
    rw [if_pos (show (n : Int) < nA by push_cast at hA; omega),
      if_pos (show (n : Int) < nC by push_cast at hC; omega)]
    dsimp only
    rw [hrec]

/-- C1 (amended): the data-oriented and object-oriented variants agree
on hardcoded spatial pooling: with equal column counts (and the column
list not longer than numCols, as always in constructed regions), the
same input yields the same per-column activity in both variants. -/
theorem claim1_spatial_agreement :
    ∀ (ra : CAnsi.Region) (rc : Cpp.Region) (input : List Int),
      ra.columns.length = rc.columns.length →
      ((ra.columns.length : Int) ≤ ra.numCols) →
      ((rc.columns.length : Int) ≤ rc.numCols) →
      (CAnsi.performSpatialPooling ra input).columns.map (fun col => col.isActive) =
        (Cpp.performSpatialPooling rc input).columns.map (fun col => col.isActive) := by
  intro ra rc input hlen hA hC
  unfold CAnsi.performSpatialPooling Cpp.performSpatialPooling
  have hh : CAnsi.HARDCODE_SPATIAL = true := rfl
  rw [if_pos hh, if_pos hh]
  dsimp only
  exact spatial_agree_go input ra.numCols rc.numCols 0 ra.columns rc.columns hlen
    (by push_cast; omega) (by push_cast; omega)

/-- Witness for the amended C1 at the mirrored two-column regions of
the counterexample: spatial pooling agrees there. -/
theorem claim1_spatial_agreement_witness :
    c1RegionA.columns.length = c1RegionC.columns.length ∧
    ((c1RegionA.columns.length : Int) ≤ c1RegionA.numCols) ∧
    ((c1RegionC.columns.length : Int) ≤ c1RegionC.numCols) ∧
    (CAnsi.performSpatialPooling c1RegionA [1, 0]).columns.map
        (fun col => col.isActive) =
      (Cpp.performSpatialPooling c1RegionC [1, 0]).columns.map
        (fun col => col.isActive) :=
  ⟨by decide, by decide, by decide,
    claim1_spatial_agreement c1RegionA c1RegionC [1, 0]
      (by decide) (by decide) (by decide)⟩
